import Mathlib

/-!
# Expense tracker backend: categories, transactions and reports

A shallow embedding of the request handlers of `backend/internal/handlers`
(`category.go`, `transaction.go`) and of the records of
`backend/internal/models`, followed by theorems about them.

Modelling conventions

* The relational store reached through `database.DB` is a value of type `Store`:
  one list of rows per table, kept in primary-key order, together with the two
  auto-increment sequences.  Storage failures are not modelled: every statement
  the handlers send succeeds; the one failure that is modelled is the conversion
  of a result outside the range of `float64`, below.
* `gorm.DeletedAt` is `Option Time`; `none` is SQL `NULL`, i.e. a live row.  GORM
  adds `deleted_at IS NULL` to every statement whose model is a soft-delete
  model; a table that is only named in a raw `JOIN` gets no such condition.
* `time.Time` is an integer number of nanoseconds counted from the zero instant
  `0001-01-01T00:00:00Z`.
* A finite `float64` is an exact rational within the range of the type; rounding
  is not modelled, the range is.  The store adds amounts exactly.  A number read
  from the store that is outside the range fails to convert, and since the
  report handlers do not read the error of `Scan`, the variable keeps its zero
  value.  The result of a `float64` division or product in the handlers is a
  value of `F64`: a rational in range, an infinity or NaN.  The difference
  `totalIncome - totalExpense` of two scanned sums is kept as a rational; for
  sums of non-negative amounts it is in range.
* `c.Get("userID")` and `c.Param("id")` are natural numbers; the JSON body of a
  request is the already decoded input record, on which the `binding` tags are
  then checked.
-/

namespace ExpenseTracker

/-! ## Records (`internal/models`) -/

/-- Instants: nanoseconds since `0001-01-01T00:00:00Z`, the zero `time.Time`. -/
abbrev Time := Int

/-- Rows of table `categories` (`models.Category`). -/
structure Category where
  ID : Nat
  CreatedAt : Time
  UpdatedAt : Time
  DeletedAt : Option Time
  Name : String
  Type_ : String
  Icon : String
  /-- Foreign key; `none` (SQL `NULL`) means default/system category. -/
  UserID : Option Nat
deriving DecidableEq

/-- Body of a create/update category request (`models.CategoryInput`). -/
structure CategoryInput where
  Name : String
  Type_ : String
  Icon : String
deriving DecidableEq

/-- Category as serialised to the client (`models.CategoryResponse`). -/
structure CategoryResponse where
  ID : Nat
  Name : String
  Type_ : String
  Icon : String
  UserID : Option Nat
  CreatedAt : Time
deriving DecidableEq

/-- The method `(c *Category) ToResponse()`. -/
def Category.ToResponse (c : Category) : CategoryResponse :=
  { ID := c.ID, Name := c.Name, Type_ := c.Type_, Icon := c.Icon,
    UserID := c.UserID, CreatedAt := c.CreatedAt }

/-- Rows of table `transactions` (`models.Transaction`). -/
structure Transaction where
  ID : Nat
  CreatedAt : Time
  UpdatedAt : Time
  DeletedAt : Option Time
  Amount : ℚ
  Description : String
  Date : Time
  Type_ : String
  UserID : Nat
  CategoryID : Nat
deriving DecidableEq

/-- Body of a create/update transaction request (`models.TransactionInput`). -/
structure TransactionInput where
  Amount : ℚ
  Description : String
  Date : Time
  Type_ : String
  CategoryID : Nat
deriving DecidableEq

/-- Transaction as serialised to the client (`models.TransactionResponse`). -/
structure TransactionResponse where
  ID : Nat
  Amount : ℚ
  Description : String
  Date : Time
  Type_ : String
  Category : CategoryResponse
  CreatedAt : Time
deriving DecidableEq

/-- The zero value `CategoryResponse{}`. -/
def CategoryResponse.zero : CategoryResponse :=
  { ID := 0, Name := "", Type_ := "", Icon := "", UserID := none, CreatedAt := 0 }

/-- The method `(t *Transaction) ToResponse()`; the second argument is the
preloaded `t.Category` pointer. -/
def Transaction.ToResponse (t : Transaction) (category : Option Category) :
    TransactionResponse :=
  { ID := t.ID, Amount := t.Amount, Description := t.Description, Date := t.Date,
    Type_ := t.Type_,
    Category := match category with
      | some c => c.ToResponse
      | none => CategoryResponse.zero,
    CreatedAt := t.CreatedAt }

/-! ## The store and the GORM statements the handlers use -/

/-- State of the database: both tables and their auto-increment sequences. -/
structure Store where
  categories : List Category
  transactions : List Transaction
  categorySeq : Nat
  transactionSeq : Nat
deriving DecidableEq

/-- Primary keys are unique and below the sequence that generates them. -/
def Store.WF (s : Store) : Prop :=
  (s.categories.map Category.ID).Nodup ∧
  (s.transactions.map Transaction.ID).Nodup ∧
  (∀ c ∈ s.categories, c.ID < s.categorySeq) ∧
  (∀ t ∈ s.transactions, t.ID < s.transactionSeq)

/-- What a handler writes with `c.JSON`: a status code with a payload, or a
status code with `gin.H{"error": ...}`. -/
inductive Reply (β : Type) where
  | json (status : Nat) (body : β)
  | fail (status : Nat) (error : String)
deriving DecidableEq

/-- Status code of a reply. -/
def Reply.status {β : Type} : Reply β → Nat
  | .json st _ => st
  | .fail st _ => st

def StatusOK : Nat := 200
def StatusCreated : Nat := 201
def StatusBadRequest : Nat := 400
def StatusNotFound : Nat := 404

/-- Row filter `Where("id = ? AND user_id = ?", id, userID)` on `categories`
with the soft-delete condition: a live category strictly owned by the user. -/
def ownedCategory (userID id : Nat) (c : Category) : Bool :=
  c.ID == id && c.UserID == some userID && c.DeletedAt.isNone

/-- Row filter `Where("id = ? AND (user_id IS NULL OR user_id = ?)", id, userID)`
on `categories` with the soft-delete condition: a live category the user can see. -/
def visibleCategory (userID id : Nat) (c : Category) : Bool :=
  c.ID == id && (c.UserID == none || c.UserID == some userID) && c.DeletedAt.isNone

/-- Row filter `Where("id = ? AND user_id = ?", id, userID)` on `transactions`
with the soft-delete condition. -/
def ownedTransaction (userID id : Nat) (t : Transaction) : Bool :=
  t.ID == id && t.UserID == userID && t.DeletedAt.isNone

/-- Statement `Model(&models.Transaction{}).Where("category_id = ?", id).Count`:
the number of live transactions, of any user, that reference the category. -/
def countCategoryTransactions (s : Store) (categoryID : Nat) : Nat :=
  (s.transactions.filter
    (fun t => t.CategoryID == categoryID && t.DeletedAt.isNone)).length

/-- Statement `Save(&category)`: every column of the live row with that primary
key is overwritten; `updated_at` becomes the current time. -/
def saveCategory (now : Time) (c : Category) (rows : List Category) : List Category :=
  rows.map (fun r =>
    if r.ID == c.ID && r.DeletedAt.isNone then { c with UpdatedAt := now } else r)

/-- Statement `Delete(&category)` on a soft-delete model: `deleted_at` of the live
row with that primary key is set. -/
def softDeleteCategory (now : Time) (id : Nat) (rows : List Category) : List Category :=
  rows.map (fun r =>
    if r.ID == id && r.DeletedAt.isNone then { r with DeletedAt := some now } else r)

/-- Statement `Save(&transaction)`. -/
def saveTransaction (now : Time) (t : Transaction) (rows : List Transaction) :
    List Transaction :=
  rows.map (fun r =>
    if r.ID == t.ID && r.DeletedAt.isNone then { t with UpdatedAt := now } else r)

/-- Statement `Delete(&transaction)` on a soft-delete model. -/
def softDeleteTransaction (now : Time) (id : Nat) (rows : List Transaction) :
    List Transaction :=
  rows.map (fun r =>
    if r.ID == id && r.DeletedAt.isNone then { r with DeletedAt := some now } else r)

/-! ## Request validation (`binding` tags) -/

/-- Tag `oneof=income expense`. -/
def oneofIncomeExpense (s : String) : Bool := s == "income" || s == "expense"

/-- Tags of `models.CategoryInput`: `Name` is `required,min=2,max=50`, `Type` is
`required,oneof=income expense`, `Icon` carries no tag. -/
def bindCategoryInput (input : CategoryInput) : Bool :=
  input.Name != "" && decide (2 ≤ input.Name.length) && decide (input.Name.length ≤ 50) &&
  input.Type_ != "" && oneofIncomeExpense input.Type_

/-- Tags of `models.TransactionInput`: `Amount` is `required,gt=0`, `Description`
is `required,min=1,max=255`, `Date` is `required`, `Type` is
`required,oneof=income expense`, `CategoryID` is `required`. -/
def bindTransactionInput (input : TransactionInput) : Bool :=
  input.Amount != 0 && decide (0 < input.Amount) &&
  input.Description != "" && decide (1 ≤ input.Description.length) &&
  decide (input.Description.length ≤ 255) &&
  input.Date != 0 &&
  input.Type_ != "" && oneofIncomeExpense input.Type_ &&
  input.CategoryID != 0

/-- Text of the error reply when `ShouldBindJSON` rejects the body. -/
def bindingError : String := "validation failed"

/-! ## Category handlers (`handlers/category.go`) -/

/-- Order of `Order("type, name")`: by type, then by name. -/
def categoryOrder (a b : Category) : Prop :=
  a.Type_ < b.Type_ ∨ (a.Type_ = b.Type_ ∧ a.Name ≤ b.Name)

instance : DecidableRel categoryOrder := fun a b => by
  unfold categoryOrder; infer_instance

/-- Row filter `Where("user_id IS NULL OR user_id = ?", userID)` on `categories`
with the soft-delete condition. -/
def listedCategory (userID : Nat) (c : Category) : Bool :=
  (c.UserID == none || c.UserID == some userID) && c.DeletedAt.isNone

/-- Handler `GetCategories`. -/
def GetCategories (s : Store) (userID : Nat) : Reply (List CategoryResponse) :=
  let categories :=
    (s.categories.filter (listedCategory userID)).insertionSort categoryOrder
  .json StatusOK (categories.map Category.ToResponse)

/-- Handler `GetCategory`. -/
def GetCategory (s : Store) (userID categoryID : Nat) : Reply CategoryResponse :=
  match s.categories.find? (visibleCategory userID categoryID) with
  | none => .fail StatusNotFound "Category not found"
  | some category => .json StatusOK category.ToResponse

/-- Handler `CreateCategory`. -/
def CreateCategory (s : Store) (now : Time) (userID : Nat) (input : CategoryInput) :
    Reply CategoryResponse × Store :=
  if !bindCategoryInput input then (.fail StatusBadRequest bindingError, s)
  else
    let category : Category :=
      { ID := s.categorySeq, CreatedAt := now, UpdatedAt := now, DeletedAt := none,
        Name := input.Name, Type_ := input.Type_,
        Icon := if input.Icon == "" then "📦" else input.Icon,
        UserID := some userID }
    (.json StatusCreated category.ToResponse,
      { s with categories := s.categories ++ [category],
               categorySeq := s.categorySeq + 1 })

/-- Handler `UpdateCategory`. -/
def UpdateCategory (s : Store) (now : Time) (userID categoryID : Nat)
    (input : CategoryInput) : Reply CategoryResponse × Store :=
  match s.categories.find? (ownedCategory userID categoryID) with
  | none => (.fail StatusNotFound "Category not found or cannot be updated", s)
  | some category =>
    if !bindCategoryInput input then (.fail StatusBadRequest bindingError, s)
    else
      let category : Category :=
        { category with
          Name := input.Name, Type_ := input.Type_,
          Icon := if input.Icon != "" then input.Icon else category.Icon }
      (.json StatusOK { category with UpdatedAt := now }.ToResponse,
        { s with categories := saveCategory now category s.categories })

/-- Handler `DeleteCategory`. -/
def DeleteCategory (s : Store) (now : Time) (userID categoryID : Nat) :
    Reply String × Store :=
  match s.categories.find? (ownedCategory userID categoryID) with
  | none => (.fail StatusNotFound "Category not found or cannot be deleted", s)
  | some category =>
    if countCategoryTransactions s categoryID > 0 then
      (.fail StatusBadRequest "Cannot delete category that is being used in transactions", s)
    else
      (.json StatusOK "Category deleted successfully",
        { s with categories := softDeleteCategory now category.ID s.categories })

/-- The "in use" rejection of `DeleteCategory`. -/
def categoryInUse : Reply String :=
  .fail StatusBadRequest "Cannot delete category that is being used in transactions"

/-! ## Transaction handlers (`handlers/transaction.go`) -/

/-- Statement `Preload("Category")`: the live category row a transaction points to. -/
def preloadCategory (s : Store) (t : Transaction) : Option Category :=
  s.categories.find? (fun c => c.ID == t.CategoryID && c.DeletedAt.isNone)

/-- Statement `Preload("Category").First(&transaction, transaction.ID)` followed by
`transaction.ToResponse()`: the stored row is read back (the struct is left as it
is when no row is found) and serialised with its category. -/
def reloadResponse (s : Store) (t : Transaction) : TransactionResponse :=
  let t := (s.transactions.find? (fun r => r.ID == t.ID && r.DeletedAt.isNone)).getD t
  t.ToResponse (preloadCategory s t)

/-- Handler `GetTransaction`. -/
def GetTransaction (s : Store) (userID transactionID : Nat) : Reply TransactionResponse :=
  match s.transactions.find? (ownedTransaction userID transactionID) with
  | none => .fail StatusNotFound "Transaction not found"
  | some transaction => .json StatusOK (transaction.ToResponse (preloadCategory s transaction))

/-- Handler `CreateTransaction`. -/
def CreateTransaction (s : Store) (now : Time) (userID : Nat) (input : TransactionInput) :
    Reply TransactionResponse × Store :=
  if !bindTransactionInput input then (.fail StatusBadRequest bindingError, s)
  else
    match s.categories.find? (visibleCategory userID input.CategoryID) with
    | none => (.fail StatusBadRequest "Invalid category", s)
    | some _ =>
      let transaction : Transaction :=
        { ID := s.transactionSeq, CreatedAt := now, UpdatedAt := now, DeletedAt := none,
          Amount := input.Amount, Description := input.Description, Date := input.Date,
          Type_ := input.Type_, UserID := userID, CategoryID := input.CategoryID }
      let s1 : Store :=
        { s with transactions := s.transactions ++ [transaction],
                 transactionSeq := s.transactionSeq + 1 }
      (.json StatusCreated (reloadResponse s1 transaction), s1)

/-- Handler `UpdateTransaction`. -/
def UpdateTransaction (s : Store) (now : Time) (userID transactionID : Nat)
    (input : TransactionInput) : Reply TransactionResponse × Store :=
  match s.transactions.find? (ownedTransaction userID transactionID) with
  | none => (.fail StatusNotFound "Transaction not found", s)
  | some transaction =>
    if !bindTransactionInput input then (.fail StatusBadRequest bindingError, s)
    else
      match s.categories.find? (visibleCategory userID input.CategoryID) with
      | none => (.fail StatusBadRequest "Invalid category", s)
      | some _ =>
        let transaction : Transaction :=
          { transaction with
            Amount := input.Amount, Description := input.Description, Date := input.Date,
            Type_ := input.Type_, CategoryID := input.CategoryID }
        let s1 : Store :=
          { s with transactions := saveTransaction now transaction s.transactions }
        (.json StatusOK (reloadResponse s1 { transaction with UpdatedAt := now }), s1)

/-- Handler `DeleteTransaction`. -/
def DeleteTransaction (s : Store) (now : Time) (userID transactionID : Nat) :
    Reply String × Store :=
  match s.transactions.find? (ownedTransaction userID transactionID) with
  | none => (.fail StatusNotFound "Transaction not found", s)
  | some transaction =>
    (.json StatusOK "Transaction deleted successfully",
      { s with transactions := softDeleteTransaction now transaction.ID s.transactions })

/-! ### Listing and pagination -/

/-- Query parameters of the listing (`models.TransactionFilter`).  `Page` and
`Limit` are Go `int`s, 64 bits wide. -/
structure TransactionFilter where
  StartDate : Option Time
  EndDate : Option Time
  Type_ : String
  CategoryID : Option Nat
  Page : Int
  Limit : Int
deriving DecidableEq

/-- Two's complement wrap-around of 64-bit signed arithmetic. -/
def wrap64 (x : Int) : Int := (x + 2 ^ 63) % 2 ^ 64 - 2 ^ 63

/-- Lines 22-24: `if filter.Page < 1 { filter.Page = 1 }`. -/
def normalizePage (page : Int) : Int := if page < 1 then 1 else page

/-- Lines 25-27: `if filter.Limit < 1 || filter.Limit > 100 { filter.Limit = 10 }`. -/
def normalizeLimit (limit : Int) : Int := if limit < 1 ∨ limit > 100 then 10 else limit

/-- Line 70: `(total + int64(filter.Limit) - 1) / int64(filter.Limit)` on `int64`:
wrapping addition and subtraction, division truncating toward zero. -/
def totalPages (total limit : Int) : Int :=
  Int.tdiv (wrap64 (wrap64 (total + limit) - 1)) limit

/-- The `"pagination"` object of the listing reply. -/
structure Pagination where
  page : Int
  limit : Int
  total : Int
  totalPages : Int
deriving DecidableEq

/-- Lines 22-27 and 66-71: the pagination object as a function of the requested
page and limit and of the row count `total`. -/
def paginationOf (page limit total : Int) : Pagination :=
  let page := normalizePage page
  let limit := normalizeLimit limit
  { page := page, limit := limit, total := total, totalPages := totalPages total limit }

/-- Conditions the listing adds to `Where("user_id = ?", userID)`, with the
soft-delete condition. -/
def listedTransaction (userID : Nat) (filter : TransactionFilter) (t : Transaction) : Bool :=
  t.UserID == userID && t.DeletedAt.isNone &&
  (match filter.StartDate with
    | some d => decide (d ≤ t.Date)
    | none => true) &&
  (match filter.EndDate with
    | some d => decide (t.Date ≤ d)
    | none => true) &&
  (filter.Type_ == "" || t.Type_ == filter.Type_) &&
  (match filter.CategoryID with
    | some c => t.CategoryID == c
    | none => true)

/-- Order of `Order("date DESC, created_at DESC")`. -/
def recentFirst (a b : Transaction) : Prop :=
  b.Date < a.Date ∨ (a.Date = b.Date ∧ b.CreatedAt ≤ a.CreatedAt)

instance : DecidableRel recentFirst := fun a b => by
  unfold recentFirst; infer_instance

/-- Line 50: `offset := (filter.Page - 1) * filter.Limit` on 64-bit `int`. -/
def pageOffset (page limit : Int) : Int := wrap64 (wrap64 (page - 1) * limit)

/-- Statement `Limit(limit).Offset(offset)`: an `OFFSET` clause is emitted only for
a positive offset. -/
def limitOffset {α : Type} (limit offset : Int) (rows : List α) : List α :=
  (rows.drop (if 0 < offset then offset.toNat else 0)).take limit.toNat

/-- Handler `GetTransactions`. -/
def GetTransactions (s : Store) (userID : Nat) (filter : TransactionFilter) :
    Reply (List TransactionResponse × Pagination) :=
  if !(filter.Type_ == "" || oneofIncomeExpense filter.Type_) then
    .fail StatusBadRequest bindingError
  else
    let page := normalizePage filter.Page
    let limit := normalizeLimit filter.Limit
    let query := s.transactions.filter (listedTransaction userID filter)
    let total : Int := query.length
    let transactions :=
      limitOffset limit (pageOffset page limit) (query.insertionSort recentFirst)
    .json StatusOK
      (transactions.map (fun t => t.ToResponse (preloadCategory s t)),
        paginationOf filter.Page filter.Limit total)

/-! ## Calendar arithmetic of package `time` used by the monthly report -/

/-- Nanoseconds in a second (`time.Second`). -/
def Second : Int := 1000000000

/-- Nanoseconds in a day. -/
def Day : Int := 86400 * Second

/-- Leap years of the proleptic Gregorian calendar (`time.isLeap`). -/
def isLeap (year : Int) : Bool :=
  year % 4 == 0 && (year % 100 != 0 || year % 400 == 0)

/-- Days of a non-leap year before the first of the month (table
`time.daysBefore`); months are numbered from 1. -/
def daysBefore (month : Int) : Int :=
  if month ≤ 1 then 0 else if month = 2 then 31 else if month = 3 then 59
  else if month = 4 then 90 else if month = 5 then 120 else if month = 6 then 151
  else if month = 7 then 181 else if month = 8 then 212 else if month = 9 then 243
  else if month = 10 then 273 else if month = 11 then 304 else 334

/-- Days from `0001-01-01` to January 1st of `year`. -/
def daysSinceYearOne (year : Int) : Int :=
  365 * (year - 1) + (year - 1) / 4 - (year - 1) / 100 + (year - 1) / 400

/-- The call `time.Date(year, month, day, 0, 0, 0, 0, time.UTC)`: the month is
first normalised into `1..12`, carrying into the year. -/
def timeDate (year month day : Int) : Time :=
  let m := month - 1
  let year := year + m / 12
  let month := m % 12 + 1
  (daysSinceYearOne year + daysBefore month +
    (if isLeap year && decide (3 ≤ month) then 1 else 0) + (day - 1)) * Day

/-- Value of an ASCII digit. -/
def digitValue (c : Char) : Int := (c.toNat : Int) - 48

/-- The call `time.Parse("2006-01", value)`: four digits, a hyphen, two digits
that form a month in `1..12`, and nothing else.  The result is the year text, the
year and the month. -/
def parseYearMonth (value : String) : Option (String × Int × Int) :=
  match value.data with
  | [a, b, c, d, sep, e, f] =>
    if a.isDigit && b.isDigit && c.isDigit && d.isDigit && sep == '-' &&
        e.isDigit && f.isDigit then
      let year := digitValue a * 1000 + digitValue b * 100 + digitValue c * 10 + digitValue d
      let month := digitValue e * 10 + digitValue f
      if month ≤ 0 ∨ 12 < month then none else some (String.mk [a, b, c, d], year, month)
    else none
  | _ => none

/-- Line 198: `startDate, _ := time.Parse("2006-01", year+"-"+month)`.  The error
is dropped, so a text that does not parse yields the zero time, which is the
first instant of January of year 1. -/
def parsedMonth (year month : String) : String × Int × Int :=
  (parseYearMonth (year ++ "-" ++ month)).getD ("0001", 1, 1)

/-- First instant of a month: `time.Date(year, month, 1, 0, 0, 0, 0, time.UTC)`. -/
def monthStart (year month : Int) : Time := timeDate year month 1

/-- Line 199: `startDate.AddDate(0, 1, 0).Add(-time.Second)` for the first instant
of the month `(year, month)`: `AddDate` is `Date(year, month+1, 1, ...)`. -/
def monthEnd (year month : Int) : Time := timeDate year (month + 1) 1 - Second

/-- Names of the months, for `Format("January 2006")`. -/
def monthName (month : Int) : String :=
  if month ≤ 1 then "January" else if month = 2 then "February"
  else if month = 3 then "March" else if month = 4 then "April"
  else if month = 5 then "May" else if month = 6 then "June"
  else if month = 7 then "July" else if month = 8 then "August"
  else if month = 9 then "September" else if month = 10 then "October"
  else if month = 11 then "November" else "December"

/-! ## Reporting (`GetMonthlyReport`, `GetDashboardStats`) -/

/-- Results of a `float64` division: a rational, an infinity, or NaN. -/
inductive F64 where
  | num (q : ℚ)
  | inf (negative : Bool)
  | nan
deriving DecidableEq

/-- Bound of the finite `float64`s: a number whose magnitude reaches
`2^1024 - 2^970` converts to an infinity. -/
def float64Bound : ℚ := 2 ^ 1024 - 2 ^ 970

/-- The number lies in the range of the finite `float64`s. -/
def fitsFloat64 (v : ℚ) : Bool := decide (-float64Bound < v) && decide (v < float64Bound)

/-- The `float64` that an arithmetic operation with exact result `v` produces: `v`
in range, else the infinity of its sign. -/
def F64.ofRat (v : ℚ) : F64 := if fitsFloat64 v then .num v else .inf (decide (v < 0))

/-- The quotient `x / y` of two `float64`s; a zero is `+0`. -/
def F64.div : F64 → F64 → F64
  | .nan, _ => .nan
  | _, .nan => .nan
  | .inf _, .inf _ => .nan
  | .inf n, .num b => .inf (n != decide (b < 0))
  | .num _, .inf _ => .num 0
  | .num a, .num b =>
    if b = 0 then (if a = 0 then .nan else .inf (decide (a < 0))) else F64.ofRat (a / b)

/-- The comparison `x > 0`. -/
def F64.pos : F64 → Bool
  | .num q => decide (0 < q)
  | .inf n => !n
  | .nan => false

/-- The product `x * 100`. -/
def F64.times100 : F64 → F64
  | .num q => F64.ofRat (q * 100)
  | .inf n => .inf n
  | .nan => .nan

/-- Condition `date >= ? AND date <= ?` with `startDate` and `endDate`. -/
def inWindow (startDate endDate : Time) (date : Time) : Bool :=
  decide (startDate ≤ date) && decide (date ≤ endDate)

/-- SQL `SUM(amount)`: `NULL` over no rows, else the running sum. -/
def sqlSum : List ℚ → Option ℚ
  | [] => none
  | x :: xs => some (xs.foldl (fun acc y => acc + y) x)

/-- Conversion of a number of the store into a `float64` variable by `Scan`, whose
error the report handlers do not read: a number outside the range of `float64`
fails to convert and the variable keeps its zero value. -/
def scanFloat64 (v : ℚ) : ℚ := if fitsFloat64 v then v else 0

/-- SQL `COALESCE(SUM(amount), 0)` scanned into a `float64`. -/
def coalesceSum (amounts : List ℚ) : ℚ :=
  scanFloat64
    (match sqlSum amounts with
      | some v => v
      | none => 0)

/-- The local type `CategoryBreakdown` of both report handlers. -/
structure CategoryBreakdown where
  CategoryID : Nat
  CategoryName : String
  CategoryIcon : String
  TotalAmount : ℚ
  Count : Nat
deriving DecidableEq

/-- An entry of the category breakdown (`models.CategorySummary`). -/
structure CategorySummary where
  CategoryID : Nat
  CategoryName : String
  CategoryIcon : String
  TotalAmount : ℚ
  Count : Nat
  Percentage : F64
deriving DecidableEq

/-- The report header (`models.MonthlyReport`). -/
structure MonthlyReport where
  Month : String
  TotalIncome : ℚ
  TotalExpense : ℚ
  Balance : ℚ
  TransactionCount : Nat
deriving DecidableEq

/-- The dashboard (`models.DashboardStats`). -/
structure DashboardStats where
  TotalIncome : ℚ
  TotalExpense : ℚ
  Balance : ℚ
  TransactionCount : Nat
  CategoryBreakdown : List CategorySummary
  RecentTransactions : List TransactionResponse
deriving DecidableEq

/-- Clause `JOIN categories ON categories.id = transactions.category_id`: every
pair of a selected transaction and a category row with that id.  The join is
written by hand, so soft-deleted category rows take part. -/
def joinCategories (txs : List Transaction) (cats : List Category) :
    List (Transaction × Category) :=
  txs.flatMap (fun t => (cats.filter (fun c => c.ID == t.CategoryID)).map (fun c => (t, c)))

/-- Key of `Group("category_id, categories.name, categories.icon")`. -/
def groupKey (r : Transaction × Category) : Nat × String × String :=
  (r.1.CategoryID, r.2.Name, r.2.Icon)

/-- Select list `category_id, categories.name, categories.icon, SUM(amount),
COUNT(*)` over the groups of the joined rows. -/
def groupBreakdown (rows : List (Transaction × Category)) : List CategoryBreakdown :=
  ((rows.map groupKey).dedup).map (fun k =>
    let group := rows.filter (fun r => groupKey r == k)
    { CategoryID := k.1, CategoryName := k.2.1, CategoryIcon := k.2.2,
      TotalAmount := (group.map (fun r => r.1.Amount)).sum, Count := group.length })

/-- Order of `Order("total_amount DESC")`. -/
def totalDesc (a b : CategoryBreakdown) : Prop := b.TotalAmount ≤ a.TotalAmount

instance : DecidableRel totalDesc := fun a b => by
  unfold totalDesc; infer_instance

/-- The grouped query of both reports, before any `Limit`, over the selected
transactions: the rows as the store computes and orders them. -/
def breakdownQuery (s : Store) (selected : List Transaction) : List CategoryBreakdown :=
  (groupBreakdown (joinCategories selected s.categories)).insertionSort totalDesc

/-- A row of the grouped query scanned into the local struct by `Scan`, whose error
is not read: the columns are converted in the order of the select list, and the
conversion stops at the first column that fails, so a `total_amount` outside the
range of `float64` leaves `TotalAmount` and the column after it, `Count`, at zero. -/
def scanBreakdownRow (row : CategoryBreakdown) : CategoryBreakdown :=
  if fitsFloat64 row.TotalAmount then row else { row with TotalAmount := 0, Count := 0 }

/-- Live transactions of the user in the window: the rows of
`Where("user_id = ? AND date >= ? AND date <= ?", ...)`. -/
def windowTransactions (s : Store) (userID : Nat) (startDate endDate : Time) :
    List Transaction :=
  s.transactions.filter (fun t =>
    t.UserID == userID && inWindow startDate endDate t.Date && t.DeletedAt.isNone)

/-- Live transactions of the user of one type in the window: the rows of
`Where("user_id = ? AND type = ? AND date >= ? AND date <= ?", ...)`. -/
def windowTransactionsOfType (s : Store) (userID : Nat) (type : String)
    (startDate endDate : Time) : List Transaction :=
  s.transactions.filter (fun t =>
    t.UserID == userID && t.Type_ == type && inWindow startDate endDate t.Date &&
      t.DeletedAt.isNone)

/-- Lines 235-246: the loop of `GetMonthlyReport` that turns the grouped rows into
summaries; the percentage is computed without looking at the divisor. -/
def monthlySummaries (totalIncome totalExpense : ℚ) (rows : List CategoryBreakdown) :
    List CategorySummary :=
  rows.map (fun cb =>
    { CategoryID := cb.CategoryID, CategoryName := cb.CategoryName,
      CategoryIcon := cb.CategoryIcon, TotalAmount := cb.TotalAmount, Count := cb.Count,
      Percentage :=
        ((F64.num cb.TotalAmount).div (F64.ofRat (totalIncome + totalExpense))).times100 })

/-- Handler `GetMonthlyReport`; `yearStr` and `monthStr` are the values of the two
`c.DefaultQuery` calls. -/
def GetMonthlyReport (s : Store) (userID : Nat) (yearStr monthStr : String) :
    Reply (MonthlyReport × List CategorySummary) :=
  let parsed := parsedMonth yearStr monthStr
  let startDate := monthStart parsed.2.1 parsed.2.2
  let endDate := monthEnd parsed.2.1 parsed.2.2
  let totalIncome := coalesceSum
    ((windowTransactionsOfType s userID "income" startDate endDate).map Transaction.Amount)
  let totalExpense := coalesceSum
    ((windowTransactionsOfType s userID "expense" startDate endDate).map Transaction.Amount)
  let transactionCount := (windowTransactions s userID startDate endDate).length
  let categoryBreakdown :=
    (breakdownQuery s (windowTransactions s userID startDate endDate)).map scanBreakdownRow
  let categorySum := monthlySummaries totalIncome totalExpense categoryBreakdown
  let report : MonthlyReport :=
    { Month := monthName parsed.2.2 ++ " " ++ parsed.1,
      TotalIncome := totalIncome, TotalExpense := totalExpense,
      Balance := totalIncome - totalExpense, TransactionCount := transactionCount }
  .json StatusOK (report, categorySum)

/-- Live transactions of the user: the rows of `Where("user_id = ?", userID)`. -/
def userTransactions (s : Store) (userID : Nat) : List Transaction :=
  s.transactions.filter (fun t => t.UserID == userID && t.DeletedAt.isNone)

/-- Live transactions of the user of one type: the rows of
`Where("user_id = ? AND type = ?", userID, type)`. -/
def userTransactionsOfType (s : Store) (userID : Nat) (type : String) : List Transaction :=
  s.transactions.filter (fun t =>
    t.UserID == userID && t.Type_ == type && t.DeletedAt.isNone)

/-- Lines 312-327: the loop of `GetDashboardStats`; the percentage is zero unless
`totalAmount > 0`. -/
def dashboardSummaries (totalAmount : F64) (rows : List CategoryBreakdown) :
    List CategorySummary :=
  rows.map (fun cb =>
    { CategoryID := cb.CategoryID, CategoryName := cb.CategoryName,
      CategoryIcon := cb.CategoryIcon, TotalAmount := cb.TotalAmount, Count := cb.Count,
      Percentage :=
        if totalAmount.pos then ((F64.num cb.TotalAmount).div totalAmount).times100
        else .num 0 })

/-- Handler `GetDashboardStats`. -/
def GetDashboardStats (s : Store) (userID : Nat) : Reply DashboardStats :=
  let totalIncome := coalesceSum
    ((userTransactionsOfType s userID "income").map Transaction.Amount)
  let totalExpense := coalesceSum
    ((userTransactionsOfType s userID "expense").map Transaction.Amount)
  let transactionCount := (userTransactions s userID).length
  let recentTransactions := ((userTransactions s userID).insertionSort recentFirst).take 5
  let recentTxResponse := recentTransactions.map (fun t => t.ToResponse (preloadCategory s t))
  let categoryBreakdown :=
    ((breakdownQuery s (userTransactions s userID)).take 10).map scanBreakdownRow
  let categorySum := dashboardSummaries (F64.ofRat (totalIncome + totalExpense)) categoryBreakdown
  .json StatusOK
    { TotalIncome := totalIncome, TotalExpense := totalExpense,
      Balance := totalIncome - totalExpense, TransactionCount := transactionCount,
      CategoryBreakdown := categorySum, RecentTransactions := recentTxResponse }

/-! ## Sequences of service calls -/

/-- A mutating request to the service, with the clock reading at which it runs
and the authenticated user. -/
inductive Call where
  | createTransaction (now : Time) (userID : Nat) (input : TransactionInput)
  | updateTransaction (now : Time) (userID id : Nat) (input : TransactionInput)
  | deleteTransaction (now : Time) (userID id : Nat)
  | createCategory (now : Time) (userID : Nat) (input : CategoryInput)
  | updateCategory (now : Time) (userID id : Nat) (input : CategoryInput)
  | deleteCategory (now : Time) (userID id : Nat)

/-- The store after one call. -/
def Call.run (s : Store) : Call → Store
  | .createTransaction now userID input => (CreateTransaction s now userID input).2
  | .updateTransaction now userID id input => (UpdateTransaction s now userID id input).2
  | .deleteTransaction now userID id => (DeleteTransaction s now userID id).2
  | .createCategory now userID input => (CreateCategory s now userID input).2
  | .updateCategory now userID id input => (UpdateCategory s now userID id input).2
  | .deleteCategory now userID id => (DeleteCategory s now userID id).2

/-- The store after a sequence of calls. -/
def runCalls (s : Store) (calls : List Call) : Store := calls.foldl Call.run s

/-- Every live transaction has a positive amount and points to a live category
that is a system default or belongs to the owner of the transaction. -/
def TransactionInvariant (s : Store) : Prop :=
  ∀ t ∈ s.transactions, t.DeletedAt = none →
    0 < t.Amount ∧
    ∃ c ∈ s.categories, c.ID = t.CategoryID ∧ c.DeletedAt = none ∧
      (c.UserID = none ∨ c.UserID = some t.UserID)

/-! ## Example stores -/

/-- A system-default category "Food" used by one transaction of user 7. -/
def storeSharedFood : Store :=
  { categories :=
      [{ ID := 1, CreatedAt := 0, UpdatedAt := 0, DeletedAt := none, Name := "Food",
         Type_ := "expense", Icon := "🍔", UserID := none }],
    transactions :=
      [{ ID := 1, CreatedAt := 5, UpdatedAt := 5, DeletedAt := none, Amount := 40,
         Description := "lunch", Date := 5, Type_ := "expense", UserID := 7,
         CategoryID := 1 }],
    categorySeq := 2, transactionSeq := 2 }


/-! ## The monthly report in the words of the specification -/

/-- The user's non-deleted transactions whose date lies in the window
`[startDate, endDate]`. -/
def specWindowTransactions (s : Store) (userID : Nat) (startDate endDate : Time) :
    List Transaction :=
  s.transactions.filter (fun t =>
    decide (t.UserID = userID ∧ t.DeletedAt = none ∧ startDate ≤ t.Date ∧ t.Date ≤ endDate))

/-- Sum of the amounts of the user's non-deleted transactions of one type in the
window; the empty sum is 0. -/
def specWindowTotal (s : Store) (userID : Nat) (type : String) (startDate endDate : Time) :
    ℚ :=
  (((specWindowTransactions s userID startDate endDate).filter
    (fun t => decide (t.Type_ = type))).map Transaction.Amount).sum


/-! ## The calendar month in the words of the specification -/

/-- First instant of the month that follows `(year, month)`. -/
def nextMonthStart (year month : Int) : Time :=
  if month = 12 then monthStart (year + 1) 1 else monthStart year (month + 1)

/-- An instant lies in the calendar month `(year, month)`: it is not before the
first instant of the month and it is before the first instant of the next one. -/
def inCalendarMonth (year month : Int) (date : Time) : Prop :=
  monthStart year month ≤ date ∧ date < nextMonthStart year month

instance (year month : Int) (date : Time) : Decidable (inCalendarMonth year month date) := by
  unfold inCalendarMonth; infer_instance

/-- The instant `2024-01-31T23:59:59.5Z`. -/
def lastHalfSecondOfJanuary2024 : Time := timeDate 2024 1 31 + 86399 * Second + 500000000

/-- User 7 has one transaction, dated `2024-01-31T23:59:59.5Z`. -/
def storeLastSecond : Store :=
  { categories :=
      [{ ID := 1, CreatedAt := 0, UpdatedAt := 0, DeletedAt := none, Name := "Food",
         Type_ := "expense", Icon := "🍔", UserID := none }],
    transactions :=
      [{ ID := 1, CreatedAt := 5, UpdatedAt := 5, DeletedAt := none, Amount := 40,
         Description := "late dinner", Date := lastHalfSecondOfJanuary2024,
         Type_ := "expense", UserID := 7, CategoryID := 1 }],
    categorySeq := 2, transactionSeq := 2 }

/-- The field `transaction_count` of the report in a reply, 0 for an error reply. -/
def reportCount : Reply (MonthlyReport × List CategorySummary) → Nat
  | .json _ (report, _) => report.TransactionCount
  | .fail _ _ => 0


/-! ## The example of the monthly report -/

/-- The system-default category "Food" with id 2. -/
def foodCategory : Category :=
  { ID := 2, CreatedAt := 0, UpdatedAt := 0, DeletedAt := none, Name := "Food",
    Type_ := "expense", Icon := "🍔", UserID := none }

/-- The system-default category "Salary" with id 1. -/
def salaryCategory : Category :=
  { ID := 1, CreatedAt := 0, UpdatedAt := 0, DeletedAt := none, Name := "Salary",
    Type_ := "income", Icon := "💰", UserID := none }

/-- The store of the example: user 7 has exactly two transactions, an income of
100 on 2024-01-05 booked in `incomeCategory` and an expense of 40 on 2024-01-10
booked in "Food". -/
def storeJanuary (incomeCategory : Category) : Store :=
  { categories := [incomeCategory, foodCategory],
    transactions :=
      [{ ID := 1, CreatedAt := 0, UpdatedAt := 0, DeletedAt := none, Amount := 100,
         Description := "pay", Date := timeDate 2024 1 5, Type_ := "income", UserID := 7,
         CategoryID := incomeCategory.ID },
       { ID := 2, CreatedAt := 0, UpdatedAt := 0, DeletedAt := none, Amount := 40,
         Description := "lunch", Date := timeDate 2024 1 10, Type_ := "expense",
         UserID := 7, CategoryID := 2 }],
    categorySeq := incomeCategory.ID + 3, transactionSeq := 3 }


/-- Every transaction row has a positive amount and the type "income" or
"expense". -/
def AmountsAndTypesValid (s : Store) : Prop :=
  ∀ t ∈ s.transactions, 0 < t.Amount ∧ (t.Type_ = "income" ∨ t.Type_ = "expense")


/-! ## The dashboard breakdown in the words of the specification -/

/-- The user's non-deleted transactions, of all time, booked in one category. -/
def specCategoryTransactions (s : Store) (userID categoryID : Nat) : List Transaction :=
  s.transactions.filter (fun t =>
    decide (t.UserID = userID ∧ t.DeletedAt = none ∧ t.CategoryID = categoryID))

/-- All-time sum of the amounts of the user's non-deleted transactions booked in
one category. -/
def specCategoryTotal (s : Store) (userID categoryID : Nat) : ℚ :=
  ((specCategoryTransactions s userID categoryID).map Transaction.Amount).sum

/-- All-time sum of the amounts of the user's non-deleted transactions of one type. -/
def specUserTotal (s : Store) (userID : Nat) (type : String) : ℚ :=
  ((s.transactions.filter (fun t =>
    decide (t.UserID = userID ∧ t.DeletedAt = none ∧ t.Type_ = type))).map
      Transaction.Amount).sum


/-! ## Example requests -/

/-- A category request without an icon. -/
def booksInput : CategoryInput := { Name := "Books", Type_ := "expense", Icon := "" }

/-- A listing request for page `2^62 + 1` with 4 rows per page and no filter. -/
def hugePageFilter : TransactionFilter :=
  { StartDate := none, EndDate := none, Type_ := "", CategoryID := none,
    Page := 4611686018427387905, Limit := 4 }


/-! ## Sums over a breakdown -/

/-- The exact sum `x + y` of two percentages: finite values add as rationals, an
infinity or NaN propagates.  The handlers do not add percentages; the sum is taken
in exact arithmetic. -/
def F64.add : F64 → F64 → F64
  | .num a, .num b => .num (a + b)
  | .nan, _ => .nan
  | _, .nan => .nan
  | .inf a, .inf b => if a = b then .inf a else .nan
  | .inf a, .num _ => .inf a
  | .num _, .inf b => .inf b

/-- Sum of the percentages of the entries of a breakdown, accumulated from 0. -/
def percentageSum (entries : List CategorySummary) : F64 :=
  entries.foldl (fun acc e => acc.add e.Percentage) (.num 0)


/-! ## Two large incomes -/

/-- The amount `1e308`, a positive number in the range of `float64`. -/
def amount1e308 : ℚ :=
  100000000000000000000000000000000000000000000000000000000000000000000000000000000000000000000000000000000000000000000000000000000000000000000000000000000000000000000000000000000000000000000000000000000000000000000000000000000000000000000000000000000000000000000000000000000000000000000000000000000000000000000

/-- A fresh store: the system-default categories "Salary" and "Food", no
transaction. -/
def storeDefaults : Store :=
  { categories := [salaryCategory, foodCategory], transactions := [],
    categorySeq := 3, transactionSeq := 1 }

/-- Two requests of user 7: an income of `1e308` booked in "Salary" on 2024-01-05 and
another on 2024-01-10. -/
def overflowCalls : List Call :=
  [.createTransaction 100 7 ⟨amount1e308, "bonus", timeDate 2024 1 5, "income", 1⟩,
   .createTransaction 101 7 ⟨amount1e308, "bonus", timeDate 2024 1 10, "income", 1⟩]

/-- The store after the two requests of `overflowCalls`. -/
def storeOverflow : Store :=
  { categories := [salaryCategory, foodCategory],
    transactions :=
      [{ ID := 1, CreatedAt := 100, UpdatedAt := 100, DeletedAt := none,
         Amount := amount1e308, Description := "bonus", Date := timeDate 2024 1 5,
         Type_ := "income", UserID := 7, CategoryID := 1 },
       { ID := 2, CreatedAt := 101, UpdatedAt := 101, DeletedAt := none,
         Amount := amount1e308, Description := "bonus", Date := timeDate 2024 1 10,
         Type_ := "income", UserID := 7, CategoryID := 1 }],
    categorySeq := 3, transactionSeq := 3 }


/-- The two requests of `overflowCalls` followed by an expense of 5 booked in
"Food". -/
def mixedCalls : List Call :=
  overflowCalls ++
    [.createTransaction 102 7 ⟨5, "lunch", timeDate 2024 1 12, "expense", 2⟩]

/-- The store after the three requests of `mixedCalls`. -/
def storeOverflowMixed : Store :=
  { categories := [salaryCategory, foodCategory],
    transactions :=
      [{ ID := 1, CreatedAt := 100, UpdatedAt := 100, DeletedAt := none,
         Amount := amount1e308, Description := "bonus", Date := timeDate 2024 1 5,
         Type_ := "income", UserID := 7, CategoryID := 1 },
       { ID := 2, CreatedAt := 101, UpdatedAt := 101, DeletedAt := none,
         Amount := amount1e308, Description := "bonus", Date := timeDate 2024 1 10,
         Type_ := "income", UserID := 7, CategoryID := 1 },
       { ID := 3, CreatedAt := 102, UpdatedAt := 102, DeletedAt := none,
         Amount := 5, Description := "lunch", Date := timeDate 2024 1 12,
         Type_ := "expense", UserID := 7, CategoryID := 2 }],
    categorySeq := 3, transactionSeq := 4 }

/-! # Theorems -/

/-! ## Deleting and updating categories -/

theorem find_ownedCategory_eq_none {s : Store} {userID id : Nat} :
    s.categories.find? (ownedCategory userID id) = none ↔
      ¬ ∃ c ∈ s.categories, c.ID = id ∧ c.UserID = some userID ∧ c.DeletedAt = none := by
  simp [List.find?_eq_none, ownedCategory, Option.isNone_iff_eq_none]

theorem countCategoryTransactions_pos {s : Store} {id : Nat} :
    0 < countCategoryTransactions s id ↔
      ∃ t ∈ s.transactions, t.CategoryID = id ∧ t.DeletedAt = none := by
  simp [countCategoryTransactions, List.length_pos_iff_exists_mem, List.mem_filter,
    Option.isNone_iff_eq_none]

/-- C1, as the code has it: `DeleteCategory(U, id)` answers with the "in use" error
exactly when `id` is a live category strictly owned by `U` and at least one live
transaction references it. -/
theorem deleteCategory_inUse_iff (s : Store) (now : Time) (userID id : Nat) :
    (DeleteCategory s now userID id).1 = categoryInUse ↔
      (∃ c ∈ s.categories, c.ID = id ∧ c.UserID = some userID ∧ c.DeletedAt = none) ∧
      (∃ t ∈ s.transactions, t.CategoryID = id ∧ t.DeletedAt = none) := by
  unfold DeleteCategory
  cases hfind : s.categories.find? (ownedCategory userID id) with
  | none =>
    have hno := find_ownedCategory_eq_none.mp hfind
    simp only [categoryInUse]
    constructor
    · intro h
      simp [StatusNotFound, StatusBadRequest] at h
    · intro h
      exact absurd h.1 hno
  | some c =>
    have hex : ∃ c ∈ s.categories, c.ID = id ∧ c.UserID = some userID ∧ c.DeletedAt = none := by
      by_contra hno
      rw [← find_ownedCategory_eq_none, hfind] at hno
      exact absurd hno (by simp)
    by_cases hcount : countCategoryTransactions s id > 0
    · simp only [hcount, if_true, categoryInUse, true_iff]
      exact ⟨hex, countCategoryTransactions_pos.mp hcount⟩
    · simp only [hcount, if_false, categoryInUse]
      constructor
      · intro h
        simp [StatusOK, StatusBadRequest] at h
      · intro h
        exact absurd (countCategoryTransactions_pos.mpr h.2) hcount

/-- C1, as stated, fails: in `storeSharedFood` a live transaction references
category 1, yet `DeleteCategory(7, 1)` answers "not found", not "in use", because
category 1 is a system default. -/
theorem deleteCategory_inUse_counterexample :
    (∃ t ∈ storeSharedFood.transactions, t.CategoryID = 1 ∧ t.DeletedAt = none) ∧
    (DeleteCategory storeSharedFood 9 7 1).1 ≠ categoryInUse ∧
    (DeleteCategory storeSharedFood 9 7 1).1.status = StatusNotFound := by
  refine ⟨⟨_, List.mem_cons_self _ _, rfl, rfl⟩, ?_, ?_⟩
  · simp [DeleteCategory, storeSharedFood, ownedCategory, categoryInUse, StatusNotFound,
      StatusBadRequest]
  · simp [DeleteCategory, storeSharedFood, ownedCategory, Reply.status]

/-- C4: when `id` is not a live category strictly owned by `U`, both
`UpdateCategory(U, id, input)` and `DeleteCategory(U, id)` answer 404 and return
the store they were given, whatever the input. -/
theorem category_write_notFound (s : Store) (now : Time) (userID id : Nat)
    (input : CategoryInput)
    (h : ¬ ∃ c ∈ s.categories, c.ID = id ∧ c.UserID = some userID ∧ c.DeletedAt = none) :
    (UpdateCategory s now userID id input).1.status = StatusNotFound ∧
    (UpdateCategory s now userID id input).2 = s ∧
    (DeleteCategory s now userID id).1.status = StatusNotFound ∧
    (DeleteCategory s now userID id).2 = s := by
  have hfind := find_ownedCategory_eq_none.mpr h
  simp [UpdateCategory, DeleteCategory, hfind, Reply.status]

/-- C4 at a system-default category: user 7 can neither update nor delete
category 1 of `storeSharedFood`. -/
theorem category_write_notFound_witness :
    (UpdateCategory storeSharedFood 9 7 1 ⟨"Meals", "expense", ""⟩).1.status = StatusNotFound ∧
    (UpdateCategory storeSharedFood 9 7 1 ⟨"Meals", "expense", ""⟩).2 = storeSharedFood ∧
    (DeleteCategory storeSharedFood 9 7 1).1.status = StatusNotFound ∧
    (DeleteCategory storeSharedFood 9 7 1).2 = storeSharedFood :=
  category_write_notFound storeSharedFood 9 7 1 ⟨"Meals", "expense", ""⟩
    (by simp [storeSharedFood])

/-! ## Listing categories -/

theorem categoryOrder_iff_lex (a b : Category) :
    categoryOrder a b ↔ toLex (a.Type_, a.Name) ≤ toLex (b.Type_, b.Name) := by
  rw [Prod.Lex.le_iff]
  rfl

theorem categoryOrder_total : IsTotal Category categoryOrder :=
  ⟨fun a b => by
    rw [categoryOrder_iff_lex, categoryOrder_iff_lex]
    exact le_total _ _⟩

theorem categoryOrder_trans : IsTrans Category categoryOrder :=
  ⟨fun a b c hab hbc => by
    rw [categoryOrder_iff_lex] at *
    exact le_trans hab hbc⟩

/-- C3: `GetCategories(U)` answers 200 with the responses of a list of rows that is
a rearrangement of the live categories whose owner is `U` or nobody (each such
row once, no other row), in ascending lexicographic order of (type, name); when
primary keys are unique the ids in the answer are pairwise different. -/
theorem getCategories_exact_sorted (s : Store) (userID : Nat) :
    ∃ rows : List Category,
      GetCategories s userID = .json StatusOK (rows.map Category.ToResponse) ∧
      rows.Perm (s.categories.filter (fun c =>
        decide (c.DeletedAt = none ∧ (c.UserID = some userID ∨ c.UserID = none)))) ∧
      ((rows.map Category.ToResponse).map
        (fun r => toLex (r.Type_, r.Name))).Sorted (· ≤ ·) ∧
      ((s.categories.map Category.ID).Nodup →
        ((rows.map Category.ToResponse).map CategoryResponse.ID).Nodup) := by
  have hfilter : s.categories.filter (listedCategory userID) =
      s.categories.filter (fun c =>
        decide (c.DeletedAt = none ∧ (c.UserID = some userID ∨ c.UserID = none))) := by
    apply List.filter_congr
    intro c _
    cases hd : c.DeletedAt <;> cases hu : c.UserID <;>
      simp [listedCategory, hd, hu, beq_eq_decide]
  refine ⟨(s.categories.filter (listedCategory userID)).insertionSort categoryOrder,
    rfl, ?_, ?_, ?_⟩
  · rw [← hfilter]
    exact List.perm_insertionSort _ _
  · haveI := categoryOrder_total
    haveI := categoryOrder_trans
    have hs := List.sorted_insertionSort categoryOrder
      (s.categories.filter (listedCategory userID))
    rw [List.map_map, List.Sorted, List.pairwise_map]
    exact hs.imp (fun {a b} hab => (categoryOrder_iff_lex a b).mp hab)
  · intro hnodup
    rw [List.map_map]
    have hperm : ((s.categories.filter (listedCategory userID)).insertionSort
        categoryOrder).Perm (s.categories.filter (listedCategory userID)) :=
      List.perm_insertionSort _ _
    have hsub : ((s.categories.filter (listedCategory userID)).map Category.ID).Sublist
        (s.categories.map Category.ID) :=
      (List.filter_sublist _).map _
    have hnd := hnodup.sublist hsub
    exact ((hperm.map Category.ID).nodup_iff).mpr hnd

/-! ## The transaction invariant under service calls -/

theorem map_id_saveCategory (now : Time) (c : Category) (rows : List Category) :
    (saveCategory now c rows).map Category.ID = rows.map Category.ID := by
  simp only [saveCategory, List.map_map]
  apply List.map_congr_left
  intro r _
  simp only [Function.comp]
  split
  · rename_i h
    simp only [Bool.and_eq_true, beq_iff_eq] at h
    exact h.1.symm
  · rfl

theorem map_id_softDeleteCategory (now : Time) (id : Nat) (rows : List Category) :
    (softDeleteCategory now id rows).map Category.ID = rows.map Category.ID := by
  simp only [softDeleteCategory, List.map_map]
  apply List.map_congr_left
  intro r _
  simp only [Function.comp]
  split <;> rfl

theorem map_id_saveTransaction (now : Time) (t : Transaction) (rows : List Transaction) :
    (saveTransaction now t rows).map Transaction.ID = rows.map Transaction.ID := by
  simp only [saveTransaction, List.map_map]
  apply List.map_congr_left
  intro r _
  simp only [Function.comp]
  split
  · rename_i h
    simp only [Bool.and_eq_true, beq_iff_eq] at h
    exact h.1.symm
  · rfl

theorem map_id_softDeleteTransaction (now : Time) (id : Nat) (rows : List Transaction) :
    (softDeleteTransaction now id rows).map Transaction.ID = rows.map Transaction.ID := by
  simp only [softDeleteTransaction, List.map_map]
  apply List.map_congr_left
  intro r _
  simp only [Function.comp]
  split <;> rfl

theorem wf_of_same_ids (s s1 : Store)
    (hc : s1.categories.map Category.ID = s.categories.map Category.ID)
    (ht : s1.transactions.map Transaction.ID = s.transactions.map Transaction.ID)
    (hcs : s1.categorySeq = s.categorySeq) (hts : s1.transactionSeq = s.transactionSeq)
    (h : s.WF) : s1.WF := by
  obtain ⟨h1, h2, h3, h4⟩ := h
  have key3 : ∀ i ∈ s.categories.map Category.ID, i < s.categorySeq := by
    intro i hi
    obtain ⟨c, hc1, rfl⟩ := List.mem_map.mp hi
    exact h3 c hc1
  have key4 : ∀ i ∈ s.transactions.map Transaction.ID, i < s.transactionSeq := by
    intro i hi
    obtain ⟨t, ht1, rfl⟩ := List.mem_map.mp hi
    exact h4 t ht1
  refine ⟨hc ▸ h1, ht ▸ h2, ?_, ?_⟩
  · intro c hcm
    rw [hcs]
    exact key3 _ (hc ▸ List.mem_map_of_mem _ hcm)
  · intro t htm
    rw [hts]
    exact key4 _ (ht ▸ List.mem_map_of_mem _ htm)

theorem wf_createCategory (s : Store) (now : Time) (userID : Nat) (input : CategoryInput)
    (h : s.WF) : (CreateCategory s now userID input).2.WF := by
  unfold CreateCategory
  split
  · exact h
  · obtain ⟨h1, h2, h3, h4⟩ := h
    refine ⟨?_, h2, ?_, h4⟩
    · simp only [List.map_append, List.map_cons, List.map_nil]
      rw [List.nodup_append]
      refine ⟨h1, List.nodup_singleton _, ?_⟩
      intro i hi hi2
      obtain ⟨c, hc1, rfl⟩ := List.mem_map.mp hi
      have := h3 c hc1
      simp only [List.mem_singleton] at hi2
      omega
    · intro c hc
      simp only [List.mem_append, List.mem_singleton] at hc
      rcases hc with hc | rfl
      · exact Nat.lt_succ_of_lt (h3 c hc)
      · exact Nat.lt_succ_self _

theorem wf_createTransaction (s : Store) (now : Time) (userID : Nat)
    (input : TransactionInput) (h : s.WF) : (CreateTransaction s now userID input).2.WF := by
  unfold CreateTransaction
  split
  · exact h
  · split
    · exact h
    · obtain ⟨h1, h2, h3, h4⟩ := h
      refine ⟨h1, ?_, h3, ?_⟩
      · simp only [List.map_append, List.map_cons, List.map_nil]
        rw [List.nodup_append]
        refine ⟨h2, List.nodup_singleton _, ?_⟩
        intro i hi hi2
        obtain ⟨t, ht1, rfl⟩ := List.mem_map.mp hi
        have := h4 t ht1
        simp only [List.mem_singleton] at hi2
        omega
      · intro t ht
        simp only [List.mem_append, List.mem_singleton] at ht
        rcases ht with ht | rfl
        · exact Nat.lt_succ_of_lt (h4 t ht)
        · exact Nat.lt_succ_self _

/-- Primary keys stay unique under every service call. -/
theorem wf_run (s : Store) (call : Call) (h : s.WF) : (Call.run s call).WF := by
  cases call with
  | createTransaction now userID input => exact wf_createTransaction s now userID input h
  | createCategory now userID input => exact wf_createCategory s now userID input h
  | updateTransaction now userID id input =>
    simp only [Call.run, UpdateTransaction]
    split
    · exact h
    · split
      · exact h
      · split
        · exact h
        · exact wf_of_same_ids s _ rfl (map_id_saveTransaction _ _ _) rfl rfl h
  | deleteTransaction now userID id =>
    simp only [Call.run, DeleteTransaction]
    split
    · exact h
    · exact wf_of_same_ids s _ rfl (map_id_softDeleteTransaction _ _ _) rfl rfl h
  | updateCategory now userID id input =>
    simp only [Call.run, UpdateCategory]
    split
    · exact h
    · split
      · exact h
      · exact wf_of_same_ids s _ (map_id_saveCategory _ _ _) rfl rfl rfl h
  | deleteCategory now userID id =>
    simp only [Call.run, DeleteCategory]
    split
    · exact h
    · split
      · exact h
      · exact wf_of_same_ids s _ (map_id_softDeleteCategory _ _ _) rfl rfl rfl h

theorem visibleCategory_iff {userID id : Nat} {c : Category} :
    visibleCategory userID id c = true ↔
      c.ID = id ∧ (c.UserID = none ∨ c.UserID = some userID) ∧ c.DeletedAt = none := by
  simp [visibleCategory, Option.isNone_iff_eq_none, and_assoc]

theorem ownedCategory_iff {userID id : Nat} {c : Category} :
    ownedCategory userID id c = true ↔
      c.ID = id ∧ c.UserID = some userID ∧ c.DeletedAt = none := by
  simp [ownedCategory, Option.isNone_iff_eq_none, and_assoc]

theorem ownedTransaction_iff {userID id : Nat} {t : Transaction} :
    ownedTransaction userID id t = true ↔
      t.ID = id ∧ t.UserID = userID ∧ t.DeletedAt = none := by
  simp [ownedTransaction, Option.isNone_iff_eq_none, and_assoc]

theorem bindTransactionInput_amount {input : TransactionInput}
    (h : bindTransactionInput input = true) : 0 < input.Amount := by
  simp only [bindTransactionInput, Bool.and_eq_true, decide_eq_true_eq, and_assoc] at h
  exact h.2.1

theorem inv_createTransaction (s : Store) (now : Time) (userID : Nat)
    (input : TransactionInput) (hinv : TransactionInvariant s) :
    TransactionInvariant (CreateTransaction s now userID input).2 := by
  unfold CreateTransaction
  split
  · exact hinv
  · rename_i hbind
    split
    · exact hinv
    · rename_i c hfind
      intro t ht hlive
      simp only [List.mem_append, List.mem_singleton] at ht
      rcases ht with ht | rfl
      · exact hinv t ht hlive
      · have hp := visibleCategory_iff.mp (List.find?_some hfind)
        have hm := List.mem_of_find?_eq_some hfind
        have hb : bindTransactionInput input = true := by
          simpa using hbind
        exact ⟨bindTransactionInput_amount hb, c, hm, hp.1, hp.2.2, hp.2.1⟩

theorem inv_updateTransaction (s : Store) (now : Time) (userID id : Nat)
    (input : TransactionInput) (hinv : TransactionInvariant s) :
    TransactionInvariant (UpdateTransaction s now userID id input).2 := by
  unfold UpdateTransaction
  split
  · exact hinv
  · rename_i t0 hfind0
    split
    · exact hinv
    · rename_i hbind
      split
      · exact hinv
      · rename_i c hfind
        intro t ht hlive
        simp only [saveTransaction, List.mem_map] at ht
        obtain ⟨r, hr, hrt⟩ := ht
        split at hrt
        · subst hrt
          have hp := visibleCategory_iff.mp (List.find?_some hfind)
          have hm := List.mem_of_find?_eq_some hfind
          have h0 := ownedTransaction_iff.mp (List.find?_some hfind0)
          have hb : bindTransactionInput input = true := by
            simpa using hbind
          refine ⟨bindTransactionInput_amount hb, c, hm, hp.1, hp.2.2, ?_⟩
          simpa [h0.2.1] using hp.2.1
        · subst hrt
          exact hinv r hr hlive

theorem inv_deleteTransaction (s : Store) (now : Time) (userID id : Nat)
    (hinv : TransactionInvariant s) :
    TransactionInvariant (DeleteTransaction s now userID id).2 := by
  unfold DeleteTransaction
  split
  · exact hinv
  · intro t ht hlive
    simp only [softDeleteTransaction, List.mem_map] at ht
    obtain ⟨r, hr, hrt⟩ := ht
    split at hrt
    · subst hrt
      simp at hlive
    · subst hrt
      exact hinv r hr hlive

theorem inv_createCategory (s : Store) (now : Time) (userID : Nat) (input : CategoryInput)
    (hinv : TransactionInvariant s) :
    TransactionInvariant (CreateCategory s now userID input).2 := by
  unfold CreateCategory
  split
  · exact hinv
  · intro t ht hlive
    obtain ⟨hpos, c, hc, hrest⟩ := hinv t ht hlive
    exact ⟨hpos, c, List.mem_append_left _ hc, hrest⟩

theorem mem_saveCategory_of_mem (now : Time) (c : Category) {rows : List Category}
    {r : Category} (hr : r ∈ rows) :
    (if r.ID == c.ID && r.DeletedAt.isNone then { c with UpdatedAt := now } else r) ∈
      saveCategory now c rows :=
  List.mem_map_of_mem _ hr

theorem inv_updateCategory (s : Store) (now : Time) (userID id : Nat)
    (input : CategoryInput) (hwf : s.WF) (hinv : TransactionInvariant s) :
    TransactionInvariant (UpdateCategory s now userID id input).2 := by
  unfold UpdateCategory
  split
  · exact hinv
  · rename_i c0 hfind0
    split
    · exact hinv
    · intro t ht hlive
      obtain ⟨hpos, c, hc, hid, hcl, hown⟩ := hinv t ht hlive
      have h0 := ownedCategory_iff.mp (List.find?_some hfind0)
      have hm0 := List.mem_of_find?_eq_some hfind0
      refine ⟨hpos, ?_⟩
      by_cases hcid : c.ID = c0.ID
      · have hcc : c = c0 := List.inj_on_of_nodup_map hwf.1 hc hm0 hcid
        subst hcc
        refine ⟨_, mem_saveCategory_of_mem now _ hc, ?_, ?_, ?_⟩
        · simpa [hcl] using hid
        · simp [hcl]
        · simpa [hcl] using hown
      · refine ⟨c, List.mem_map.mpr ⟨c, hc, ?_⟩, hid, hcl, hown⟩
        simp [hcid]

theorem inv_deleteCategory (s : Store) (now : Time) (userID id : Nat)
    (hinv : TransactionInvariant s) :
    TransactionInvariant (DeleteCategory s now userID id).2 := by
  unfold DeleteCategory
  split
  · exact hinv
  · rename_i c0 hfind0
    split
    · exact hinv
    · rename_i hcount
      intro t ht hlive
      obtain ⟨hpos, c, hc, hid, hcl, hown⟩ := hinv t ht hlive
      have h0 := ownedCategory_iff.mp (List.find?_some hfind0)
      have hne : t.CategoryID ≠ id := by
        intro heq
        exact hcount (countCategoryTransactions_pos.mpr ⟨t, ht, heq, hlive⟩)
      refine ⟨hpos, c, ?_, hid, hcl, hown⟩
      simp only [softDeleteCategory, List.mem_map]
      refine ⟨c, hc, ?_⟩
      have : c.ID ≠ c0.ID := by
        rw [hid, h0.1]
        exact hne
      simp [this]

/-- The transaction invariant survives every service call on a store with unique
primary keys. -/
theorem inv_run (s : Store) (call : Call) (hwf : s.WF) (hinv : TransactionInvariant s) :
    TransactionInvariant (Call.run s call) := by
  cases call with
  | createTransaction now userID input => exact inv_createTransaction s now userID input hinv
  | updateTransaction now userID id input =>
    exact inv_updateTransaction s now userID id input hinv
  | deleteTransaction now userID id => exact inv_deleteTransaction s now userID id hinv
  | createCategory now userID input => exact inv_createCategory s now userID input hinv
  | updateCategory now userID id input =>
    exact inv_updateCategory s now userID id input hwf hinv
  | deleteCategory now userID id => exact inv_deleteCategory s now userID id hinv

theorem wf_runCalls (s : Store) (calls : List Call) (hwf : s.WF) : (runCalls s calls).WF := by
  induction calls generalizing s with
  | nil => exact hwf
  | cons call rest ih => exact ih (Call.run s call) (wf_run s call hwf)

/-- C2: from a store with unique primary keys that satisfies the invariant, every
sequence of create/update/delete calls on transactions and categories, by any
users, leads to a store in which every live transaction has a positive amount and
references a live category that is a system default or belongs to its owner. -/
theorem transactionInvariant_runCalls (s : Store) (calls : List Call) (hwf : s.WF)
    (hinv : TransactionInvariant s) : TransactionInvariant (runCalls s calls) := by
  induction calls generalizing s with
  | nil => exact hinv
  | cons call rest ih =>
    exact ih (Call.run s call) (wf_run s call hwf) (inv_run s call hwf hinv)

/-- C2 on a run from `storeSharedFood`: user 7 adds a category, books a
transaction in it, moves it to the shared category and deletes the now unused
category; user 8 tries to book in user 7's category. -/
theorem transactionInvariant_runCalls_witness :
    storeSharedFood.WF ∧ TransactionInvariant storeSharedFood ∧
    TransactionInvariant (runCalls storeSharedFood
      [.createCategory 10 7 ⟨"Books", "expense", ""⟩,
       .createTransaction 11 7 ⟨25, "novel", 11, "expense", 2⟩,
       .createTransaction 12 8 ⟨30, "atlas", 12, "expense", 2⟩,
       .updateTransaction 13 7 2 ⟨25, "novel", 11, "expense", 1⟩,
       .deleteCategory 14 7 2,
       .deleteTransaction 15 7 1]) :=
  have hwf : storeSharedFood.WF := by
    simp [Store.WF, storeSharedFood]
  have hinv : TransactionInvariant storeSharedFood := by
    simp [TransactionInvariant, storeSharedFood]
  ⟨hwf, hinv, transactionInvariant_runCalls storeSharedFood _ hwf hinv⟩

/-! ## Pagination of the transaction listing -/

theorem wrap64_of_range {x : Int} (h1 : -(2 ^ 63) ≤ x) (h2 : x < 2 ^ 63) : wrap64 x = x := by
  unfold wrap64
  norm_num at h1 h2 ⊢
  omega

theorem wrap64_sub_one (a : Int) : wrap64 (wrap64 a - 1) = wrap64 (a - 1) := by
  unfold wrap64
  norm_num
  omega

theorem totalPages_eq {total limit : Int} (h0 : 0 ≤ total) (h1 : 1 ≤ limit)
    (h2 : total + limit ≤ 2 ^ 63) : totalPages total limit = (total + limit - 1) / limit := by
  unfold totalPages
  rw [wrap64_sub_one, wrap64_of_range (by norm_num at h2 ⊢; omega) (by norm_num at h2 ⊢; omega)]
  exact Int.tdiv_eq_ediv (by omega) (by omega)

theorem normalizeLimit_range (limit : Int) : 1 ≤ normalizeLimit limit ∧ normalizeLimit limit ≤ 100 := by
  unfold normalizeLimit
  split <;> omega

/-- C10: for every requested `page` and `limit` and every row count `total ≥ 0` that
a table can hold, `total + limit' ≤ 2^63` (the count of one user's rows is far below
the top of `int64`), the pagination object has
`page' = page` if `page ≥ 1` else 1, `limit' = limit` if `1 ≤ limit ≤ 100` else 10,
and `totalPages = (total + limit' - 1) / limit'`, which is the ceiling of
`total / limit'`: the least integer `n` with `n * limit' ≥ total`, and 0 when
`total = 0`. -/
theorem pagination_meta (page limit total : Int) (h0 : 0 ≤ total)
    (hfit : total + normalizeLimit limit ≤ 2 ^ 63) :
    (paginationOf page limit total).page = (if 1 ≤ page then page else 1) ∧
    (paginationOf page limit total).limit = (if 1 ≤ limit ∧ limit ≤ 100 then limit else 10) ∧
    (paginationOf page limit total).totalPages =
      (total + (paginationOf page limit total).limit - 1) / (paginationOf page limit total).limit ∧
    (paginationOf page limit total).totalPages =
      ⌈(total : ℚ) / ((paginationOf page limit total).limit : ℚ)⌉ ∧
    total ≤ (paginationOf page limit total).totalPages * (paginationOf page limit total).limit ∧
    (∀ n : Int, total ≤ n * (paginationOf page limit total).limit →
      (paginationOf page limit total).totalPages ≤ n) ∧
    (total = 0 → (paginationOf page limit total).totalPages = 0) := by
  obtain ⟨hl1, hl2⟩ := normalizeLimit_range limit
  have htp := totalPages_eq h0 hl1 hfit
  simp only [paginationOf]
  generalize hL : normalizeLimit limit = L at *
  have hLpos : (0 : Int) < L := by omega
  have hdiv : totalPages total L * L ≤ total + L - 1 := by
    rw [htp]; exact Int.ediv_mul_le _ (by omega)
  have hdiv2 : total + L - 1 < (totalPages total L + 1) * L := by
    rw [htp]; exact Int.lt_ediv_add_one_mul_self _ hLpos
  have hge : total ≤ totalPages total L * L := by nlinarith
  have hleast : ∀ n : Int, total ≤ n * L → totalPages total L ≤ n := by
    intro n hn
    by_contra hlt
    push_neg at hlt
    have : (n + 1) * L ≤ totalPages total L * L := by
      apply mul_le_mul_of_nonneg_right (by omega) (by omega)
    nlinarith
  refine ⟨?_, ?_, htp, ?_, hge, hleast, ?_⟩
  · unfold normalizePage; split <;> split <;> omega
  · rw [← hL]; unfold normalizeLimit; split <;> split <;> omega
  · symm
    rw [Int.ceil_eq_iff]
    have hLq : (0 : ℚ) < (L : ℚ) := by exact_mod_cast hLpos
    constructor
    · rw [lt_div_iff₀ hLq]
      have : (totalPages total L - 1) * L < total := by nlinarith
      exact_mod_cast this
    · rw [div_le_iff₀ hLq]
      exact_mod_cast hge
  · intro h
    have := hleast 0 (by omega)
    nlinarith


/-- C10 at `page = 0`, `limit = 500`, `total = 25`: page 1, limit 10, 3 pages. -/
theorem pagination_meta_witness :
    (0 : Int) ≤ 25 ∧ (25 : Int) + normalizeLimit 500 ≤ 2 ^ 63 ∧
    (paginationOf 0 500 25).page = 1 ∧ (paginationOf 0 500 25).limit = 10 ∧
    (paginationOf 0 500 25).totalPages = 3 ∧
    (paginationOf 0 500 25).totalPages = ⌈((25 : Int) : ℚ) / ((10 : Int) : ℚ)⌉ :=
  have h := pagination_meta 0 500 25 (by decide) (by decide)
  ⟨by decide, by decide, by decide, by decide, by decide,
    by
      have h4 := h.2.2.2.1
      have hl : (paginationOf 0 500 25).limit = 10 := by decide
      rw [hl] at h4
      exact h4⟩

/-! ## Totals of the monthly report -/

theorem foldl_add_eq_sum (x : ℚ) (xs : List ℚ) :
    xs.foldl (fun acc y => acc + y) x = x + xs.sum := by
  induction xs generalizing x with
  | nil => simp
  | cons y ys ih => rw [List.foldl_cons, ih, List.sum_cons, add_assoc]

theorem windowTransactions_eq_spec (s : Store) (userID : Nat) (startDate endDate : Time) :
    windowTransactions s userID startDate endDate =
      specWindowTransactions s userID startDate endDate := by
  unfold windowTransactions specWindowTransactions
  apply List.filter_congr
  intro t _
  rw [Bool.eq_iff_iff]
  simp only [inWindow, Bool.and_eq_true, beq_iff_eq, decide_eq_true_eq,
    Option.isNone_iff_eq_none]
  tauto

theorem windowTransactionsOfType_eq_spec (s : Store) (userID : Nat) (type : String)
    (startDate endDate : Time) :
    windowTransactionsOfType s userID type startDate endDate =
      (specWindowTransactions s userID startDate endDate).filter
        (fun t => decide (t.Type_ = type)) := by
  unfold windowTransactionsOfType specWindowTransactions
  rw [List.filter_filter]
  apply List.filter_congr
  intro t _
  rw [Bool.eq_iff_iff]
  simp only [inWindow, Bool.and_eq_true, beq_iff_eq, decide_eq_true_eq,
    Option.isNone_iff_eq_none]
  tauto

theorem breakdownQuery_nil (s : Store) : breakdownQuery s [] = [] := by
  simp [breakdownQuery, joinCategories, groupBreakdown]

/-! ## The window of the monthly report -/

theorem monthStart_thirteen (year : Int) : monthStart year 13 = monthStart (year + 1) 1 := by
  simp [monthStart, timeDate]

theorem nextMonthStart_eq (year month : Int) :
    nextMonthStart year month = monthStart year (month + 1) := by
  unfold nextMonthStart
  split
  · rename_i h
    rw [h]
    exact (monthStart_thirteen year).symm
  · rfl

theorem monthEnd_eq (year month : Int) :
    monthEnd year month = nextMonthStart year month - Second := by
  rw [nextMonthStart_eq]
  rfl

/-- The filter of the monthly report accepts an instant exactly when it lies
between the first instant of the month and one second before the first instant
of the next month, both included. -/
theorem inWindow_month_iff (year month : Int) (date : Time) :
    inWindow (monthStart year month) (monthEnd year month) date = true ↔
      monthStart year month ≤ date ∧ date ≤ nextMonthStart year month - Second := by
  rw [monthEnd_eq]
  simp [inWindow]

/-- C7 at the failing input: `2024-01-31T23:59:59.5Z` lies in January 2024 (it is
before the first instant of February), yet the window filter for year 2024, month
01 rejects it; a transaction with that date is counted neither in the report of
January nor in the report of February. -/
theorem monthWindow_drops_final_subsecond :
    parsedMonth "2024" "01" = ("2024", 2024, 1) ∧
    inCalendarMonth 2024 1 lastHalfSecondOfJanuary2024 ∧
    inWindow (monthStart 2024 1) (monthEnd 2024 1) lastHalfSecondOfJanuary2024 = false ∧
    reportCount (GetMonthlyReport storeLastSecond 7 "2024" "01") = 0 ∧
    reportCount (GetMonthlyReport storeLastSecond 7 "2024" "02") = 0 := by
  decide

theorem monthStart_add_day_le (year month : Int) (h1 : 1 ≤ month) (h12 : month ≤ 12) :
    monthStart year month + 28 * Day ≤ nextMonthStart year month := by
  rw [nextMonthStart_eq]
  have hD : (0 : Int) < Day := by decide
  suffices h : (daysSinceYearOne (year + (month - 1) / 12) + daysBefore ((month - 1) % 12 + 1) +
      (if isLeap (year + (month - 1) / 12) && decide (3 ≤ (month - 1) % 12 + 1) then 1 else 0) +
      (1 - 1)) + 28 ≤
      (daysSinceYearOne (year + (month + 1 - 1) / 12) + daysBefore ((month + 1 - 1) % 12 + 1) +
      (if isLeap (year + (month + 1 - 1) / 12) && decide (3 ≤ (month + 1 - 1) % 12 + 1)
        then 1 else 0) + (1 - 1)) by
    simp only [monthStart, timeDate]
    nlinarith
  interval_cases month <;> simp [daysBefore, daysSinceYearOne, isLeap] <;> (try split) <;> omega

/-! ## The example of the monthly report -/

theorem januaryWindow :
    parsedMonth "2024" "01" = ("2024", 2024, 1) ∧
    monthStart 2024 1 = 63839664000000000000 ∧ monthEnd 2024 1 = 63842342399000000000 ∧
    timeDate 2024 1 5 = 63840009600000000000 ∧ timeDate 2024 1 10 = 63840441600000000000 := by
  decide

theorem storeJanuary_income (incomeCategory : Category) :
    windowTransactionsOfType (storeJanuary incomeCategory) 7 "income"
      63839664000000000000 63842342399000000000 =
      [{ ID := 1, CreatedAt := 0, UpdatedAt := 0, DeletedAt := none, Amount := 100,
         Description := "pay", Date := 63840009600000000000, Type_ := "income", UserID := 7,
         CategoryID := incomeCategory.ID }] := by
  simp [windowTransactionsOfType, storeJanuary, inWindow, januaryWindow.2.2.2.1,
    januaryWindow.2.2.2.2, List.filter]

theorem storeJanuary_expense (incomeCategory : Category) :
    windowTransactionsOfType (storeJanuary incomeCategory) 7 "expense"
      63839664000000000000 63842342399000000000 =
      [{ ID := 2, CreatedAt := 0, UpdatedAt := 0, DeletedAt := none, Amount := 40,
         Description := "lunch", Date := 63840441600000000000, Type_ := "expense",
         UserID := 7, CategoryID := 2 }] := by
  simp [windowTransactionsOfType, storeJanuary, inWindow, januaryWindow.2.2.2.1,
    januaryWindow.2.2.2.2, List.filter]

theorem storeJanuary_window (incomeCategory : Category) :
    windowTransactions (storeJanuary incomeCategory) 7
      63839664000000000000 63842342399000000000 =
      [{ ID := 1, CreatedAt := 0, UpdatedAt := 0, DeletedAt := none, Amount := 100,
         Description := "pay", Date := 63840009600000000000, Type_ := "income", UserID := 7,
         CategoryID := incomeCategory.ID },
       { ID := 2, CreatedAt := 0, UpdatedAt := 0, DeletedAt := none, Amount := 40,
         Description := "lunch", Date := 63840441600000000000, Type_ := "expense",
         UserID := 7, CategoryID := 2 }] := by
  simp [windowTransactions, storeJanuary, inWindow, januaryWindow.2.2.2.1,
    januaryWindow.2.2.2.2, List.filter]

theorem storeJanuary_breakdown (incomeCategory : Category) (hid : incomeCategory.ID ≠ 2) :
    breakdownQuery (storeJanuary incomeCategory)
      [{ ID := 1, CreatedAt := 0, UpdatedAt := 0, DeletedAt := none, Amount := 100,
         Description := "pay", Date := 63840009600000000000, Type_ := "income", UserID := 7,
         CategoryID := incomeCategory.ID },
       { ID := 2, CreatedAt := 0, UpdatedAt := 0, DeletedAt := none, Amount := 40,
         Description := "lunch", Date := 63840441600000000000, Type_ := "expense",
         UserID := 7, CategoryID := 2 }] =
      [{ CategoryID := incomeCategory.ID, CategoryName := incomeCategory.Name,
         CategoryIcon := incomeCategory.Icon, TotalAmount := 100, Count := 1 },
       { CategoryID := 2, CategoryName := "Food", CategoryIcon := "🍔",
         TotalAmount := 40, Count := 1 }] := by
  have hid2 : (2 : Nat) ≠ incomeCategory.ID := fun h => hid h.symm
  have hjoin : joinCategories
      [{ ID := 1, CreatedAt := 0, UpdatedAt := 0, DeletedAt := none, Amount := 100,
         Description := "pay", Date := 63840009600000000000, Type_ := "income",
         UserID := 7, CategoryID := incomeCategory.ID },
       { ID := 2, CreatedAt := 0, UpdatedAt := 0, DeletedAt := none, Amount := 40,
         Description := "lunch", Date := 63840441600000000000, Type_ := "expense",
         UserID := 7, CategoryID := 2 }] (storeJanuary incomeCategory).categories =
      [(({ ID := 1, CreatedAt := 0, UpdatedAt := 0, DeletedAt := none, Amount := 100,
           Description := "pay", Date := 63840009600000000000, Type_ := "income",
           UserID := 7, CategoryID := incomeCategory.ID } : Transaction), incomeCategory),
       (({ ID := 2, CreatedAt := 0, UpdatedAt := 0, DeletedAt := none, Amount := 40,
           Description := "lunch", Date := 63840441600000000000, Type_ := "expense",
           UserID := 7, CategoryID := 2 } : Transaction), foodCategory)] := by
    simp [joinCategories, storeJanuary, List.filter_cons, hid, hid2, foodCategory]
  have hkey : (incomeCategory.ID, incomeCategory.Name, incomeCategory.Icon) ≠
      ((2 : Nat), "Food", "🍔") := by
    intro h
    exact hid (congrArg Prod.fst h)
  rw [breakdownQuery, hjoin]
  simp only [groupBreakdown, List.map_cons, List.map_nil, groupKey, foodCategory]
  rw [List.dedup_cons_of_not_mem (by simpa using hkey),
    List.dedup_cons_of_not_mem (by simp), List.dedup_nil]
  simp [List.filter_cons, hid, hid2, totalDesc]
  norm_num

/-! ## The divisor of the monthly percentages -/

theorem windowTransactions_ne_nil_of_breakdown {s : Store} {txs : List Transaction}
    (h : breakdownQuery s txs ≠ []) : txs ≠ [] := by
  intro hnil
  exact h (hnil ▸ breakdownQuery_nil s)

theorem amounts_sum_pos (l : List Transaction) (hne : l ≠ [])
    (hpos : ∀ t ∈ l, 0 < t.Amount) : 0 < (l.map Transaction.Amount).sum := by
  apply List.sum_pos
  · intro x hx
    obtain ⟨t, ht, rfl⟩ := List.mem_map.mp hx
    exact hpos t ht
  · simpa using hne

theorem amounts_sum_nonneg (l : List Transaction)
    (hpos : ∀ t ∈ l, 0 < t.Amount) : 0 ≤ (l.map Transaction.Amount).sum := by
  apply List.sum_nonneg
  intro x hx
  obtain ⟨t, ht, rfl⟩ := List.mem_map.mp hx
  exact le_of_lt (hpos t ht)

theorem bindTransactionInput_type {input : TransactionInput}
    (h : bindTransactionInput input = true) :
    input.Type_ = "income" ∨ input.Type_ = "expense" := by
  simp only [bindTransactionInput, oneofIncomeExpense, Bool.and_eq_true, Bool.or_eq_true,
    beq_iff_eq, and_assoc] at h
  exact h.2.2.2.2.2.2.2.1

/-- Service calls only ever store positive amounts and the two types. -/
theorem amountsAndTypesValid_run (s : Store) (call : Call) (h : AmountsAndTypesValid s) :
    AmountsAndTypesValid (Call.run s call) := by
  cases call with
  | createTransaction now userID input =>
    simp only [Call.run, CreateTransaction]
    split
    · exact h
    · rename_i hbind
      have hb : bindTransactionInput input = true := by simpa using hbind
      split
      · exact h
      · intro t ht
        simp only [List.mem_append, List.mem_singleton] at ht
        rcases ht with ht | rfl
        · exact h t ht
        · exact ⟨bindTransactionInput_amount hb, bindTransactionInput_type hb⟩
  | updateTransaction now userID id input =>
    simp only [Call.run, UpdateTransaction]
    split
    · exact h
    · split
      · exact h
      · rename_i hbind
        have hb : bindTransactionInput input = true := by simpa using hbind
        split
        · exact h
        · intro t ht
          simp only [saveTransaction, List.mem_map] at ht
          obtain ⟨r, hr, hrt⟩ := ht
          split at hrt
          · subst hrt
            exact ⟨bindTransactionInput_amount hb, bindTransactionInput_type hb⟩
          · subst hrt
            exact h r hr
  | deleteTransaction now userID id =>
    simp only [Call.run, DeleteTransaction]
    split
    · exact h
    · intro t ht
      simp only [softDeleteTransaction, List.mem_map] at ht
      obtain ⟨r, hr, hrt⟩ := ht
      split at hrt
      · subst hrt
        exact h r hr
      · subst hrt
        exact h r hr
  | createCategory now userID input =>
    simp only [Call.run, CreateCategory]
    split <;> exact h
  | updateCategory now userID id input =>
    simp only [Call.run, UpdateCategory]
    split
    · exact h
    · split <;> exact h
  | deleteCategory now userID id =>
    simp only [Call.run, DeleteCategory]
    split
    · exact h
    · split <;> exact h

theorem amountsAndTypesValid_runCalls (s : Store) (calls : List Call)
    (h : AmountsAndTypesValid s) : AmountsAndTypesValid (runCalls s calls) := by
  induction calls generalizing s with
  | nil => exact h
  | cons call rest ih => exact ih (Call.run s call) (amountsAndTypesValid_run s call h)

/-! ## The category breakdown of the dashboard -/

theorem mem_joinCategories {txs : List Transaction} {cats : List Category}
    {t : Transaction} {c : Category} :
    (t, c) ∈ joinCategories txs cats ↔ t ∈ txs ∧ c ∈ cats ∧ c.ID = t.CategoryID := by
  simp only [joinCategories, List.mem_flatMap, List.mem_map, List.mem_filter, beq_iff_eq,
    Prod.mk.injEq]
  constructor
  · rintro ⟨t1, ht1, c1, ⟨hc1, hid⟩, rfl, rfl⟩
    exact ⟨ht1, hc1, hid⟩
  · rintro ⟨ht, hc, hid⟩
    exact ⟨t, ht, c, ⟨hc, hid⟩, rfl, rfl⟩

theorem filter_id_eq_singleton {cats : List Category} (hpk : (cats.map Category.ID).Nodup)
    {c0 : Category} (hc0 : c0 ∈ cats) :
    cats.filter (fun c => c.ID == c0.ID) = [c0] := by
  induction cats with
  | nil => simp at hc0
  | cons c rest ih =>
    simp only [List.map_cons, List.nodup_cons, List.mem_map, not_exists, not_and] at hpk
    rcases List.mem_cons.mp hc0 with h | h
    · subst h
      have hrest : rest.filter (fun c => c.ID == c0.ID) = [] := by
        rw [List.filter_eq_nil_iff]
        intro c hc
        simpa using hpk.1 c hc
      simp [List.filter_cons, hrest]
    · have hne : c.ID ≠ c0.ID := fun heq => hpk.1 c0 h heq.symm
      simp [List.filter_cons, hne, ih hpk.2 h]

theorem join_filter_category (txs : List Transaction) {cats : List Category}
    (hpk : (cats.map Category.ID).Nodup) {c0 : Category} (hc0 : c0 ∈ cats) :
    ((joinCategories txs cats).filter (fun r => r.1.CategoryID == c0.ID)).map Prod.fst =
      txs.filter (fun t => t.CategoryID == c0.ID) := by
  induction txs with
  | nil => simp [joinCategories]
  | cons t ts ih =>
    have hcons : joinCategories (t :: ts) cats =
        (cats.filter (fun c => c.ID == t.CategoryID)).map (fun c => (t, c)) ++
          joinCategories ts cats := by
      simp [joinCategories]
    rw [hcons, List.filter_append, List.map_append, ih]
    by_cases ht : t.CategoryID = c0.ID
    · have h1 : cats.filter (fun c => c.ID == t.CategoryID) = [c0] := by
        rw [ht]
        exact filter_id_eq_singleton hpk hc0
      rw [h1]
      simp [ht, List.filter_cons]
    · have h2 : ((cats.filter (fun c => c.ID == t.CategoryID)).map (fun c => (t, c))).filter
          (fun r => r.1.CategoryID == c0.ID) = [] := by
        rw [List.filter_eq_nil_iff]
        intro r hr
        obtain ⟨c, _, rfl⟩ := List.mem_map.mp hr
        simpa using ht
      rw [h2]
      simp [ht, List.filter_cons]

theorem join_filter_key {txs : List Transaction} {cats : List Category}
    (hpk : (cats.map Category.ID).Nodup) {t0 : Transaction} {c0 : Category}
    (h0 : (t0, c0) ∈ joinCategories txs cats) :
    (joinCategories txs cats).filter (fun r => groupKey r == groupKey (t0, c0)) =
      (joinCategories txs cats).filter (fun r => r.1.CategoryID == c0.ID) := by
  obtain ⟨_, hc0, hid0⟩ := mem_joinCategories.mp h0
  apply List.filter_congr
  rintro ⟨t, c⟩ hr
  obtain ⟨_, hc, hid⟩ := mem_joinCategories.mp hr
  rw [Bool.eq_iff_iff]
  simp only [groupKey, beq_iff_eq, Prod.mk.injEq]
  constructor
  · rintro ⟨h1, _, _⟩
    rw [h1, hid0]
  · intro h1
    have hcc : c = c0 := List.inj_on_of_nodup_map hpk hc hc0 (by rw [hid, h1])
    subst hcc
    exact ⟨by rw [h1, hid0], rfl, rfl⟩

theorem userTransactions_filter_category (s : Store) (userID categoryID : Nat) :
    (userTransactions s userID).filter (fun t => t.CategoryID == categoryID) =
      specCategoryTransactions s userID categoryID := by
  unfold userTransactions specCategoryTransactions
  rw [List.filter_filter]
  apply List.filter_congr
  intro t _
  rw [Bool.eq_iff_iff]
  simp only [Bool.and_eq_true, beq_iff_eq, decide_eq_true_eq, Option.isNone_iff_eq_none]
  tauto

/-- Shape of the grouped rows when category ids are unique: every row is the sum
and the count of the selected transactions booked in one category that has a row,
and at least one transaction is booked there. -/
theorem mem_groupBreakdown {txs : List Transaction} {cats : List Category}
    (hpk : (cats.map Category.ID).Nodup) {g : CategoryBreakdown}
    (hg : g ∈ groupBreakdown (joinCategories txs cats)) :
    ∃ c ∈ cats, g.CategoryID = c.ID ∧ g.CategoryName = c.Name ∧ g.CategoryIcon = c.Icon ∧
      g.TotalAmount = ((txs.filter (fun t => t.CategoryID == c.ID)).map
        Transaction.Amount).sum ∧
      g.Count = (txs.filter (fun t => t.CategoryID == c.ID)).length ∧
      0 < g.Count := by
  simp only [groupBreakdown, List.mem_map, List.mem_dedup] at hg
  obtain ⟨k, ⟨⟨t0, c0⟩, h0, rfl⟩, rfl⟩ := hg
  obtain ⟨ht0, hc0, hid0⟩ := mem_joinCategories.mp h0
  have hmap := join_filter_category txs hpk hc0
  refine ⟨c0, hc0, ?_, rfl, rfl, ?_, ?_, ?_⟩
  · simp [groupKey, hid0]
  · simp only [join_filter_key hpk h0]
    rw [← hmap, List.map_map]
    rfl
  · simp only [join_filter_key hpk h0]
    rw [← hmap, List.length_map]
  · simp only [join_filter_key hpk h0]
    rw [← List.length_map _ Prod.fst, hmap]
    apply List.length_pos_of_mem
    exact List.mem_filter.mpr ⟨ht0, by simp [hid0]⟩

theorem groupBreakdown_ids_nodup {txs : List Transaction} {cats : List Category}
    (hpk : (cats.map Category.ID).Nodup) :
    ((groupBreakdown (joinCategories txs cats)).map CategoryBreakdown.CategoryID).Nodup := by
  have hmap : (groupBreakdown (joinCategories txs cats)).map CategoryBreakdown.CategoryID =
      (((joinCategories txs cats).map groupKey).dedup).map Prod.fst := by
    simp [groupBreakdown, List.map_map, Function.comp_def]
  rw [hmap]
  apply List.Nodup.map_on _ (List.nodup_dedup _)
  intro k1 hk1 k2 hk2 hfst
  rw [List.mem_dedup, List.mem_map] at hk1 hk2
  obtain ⟨⟨t1, c1⟩, h1, rfl⟩ := hk1
  obtain ⟨⟨t2, c2⟩, h2, rfl⟩ := hk2
  obtain ⟨_, hc1, hid1⟩ := mem_joinCategories.mp h1
  obtain ⟨_, hc2, hid2⟩ := mem_joinCategories.mp h2
  simp only [groupKey] at hfst ⊢
  have hcc : c1 = c2 := List.inj_on_of_nodup_map hpk hc1 hc2 (by rw [hid1, hid2, hfst])
  subst hcc
  rw [hfst]

theorem exists_group_of_mem {txs : List Transaction} {cats : List Category}
    {t : Transaction} {c : Category} (ht : t ∈ txs) (hc : c ∈ cats)
    (hid : c.ID = t.CategoryID) :
    ∃ g ∈ groupBreakdown (joinCategories txs cats), g.CategoryID = c.ID := by
  have hj : (t, c) ∈ joinCategories txs cats := mem_joinCategories.mpr ⟨ht, hc, hid⟩
  simp only [groupBreakdown, List.mem_map, List.mem_dedup]
  exact ⟨_, ⟨groupKey (t, c), ⟨(t, c), hj, rfl⟩, rfl⟩, by simp [groupKey, hid]⟩

theorem totalDesc_total : IsTotal CategoryBreakdown totalDesc :=
  ⟨fun a b => le_total b.TotalAmount a.TotalAmount⟩

theorem totalDesc_trans : IsTrans CategoryBreakdown totalDesc :=
  ⟨fun _ _ _ hab hbc => le_trans hbc hab⟩

theorem breakdownQuery_sorted (s : Store) (txs : List Transaction) :
    (breakdownQuery s txs).Sorted totalDesc := by
  haveI := totalDesc_total
  haveI := totalDesc_trans
  exact List.sorted_insertionSort totalDesc _

theorem mem_breakdownQuery {s : Store} {txs : List Transaction} {g : CategoryBreakdown} :
    g ∈ breakdownQuery s txs ↔ g ∈ groupBreakdown (joinCategories txs s.categories) :=
  (List.perm_insertionSort totalDesc _).mem_iff

/-- For every month `1..12` of every year, the instants of the last second of the
month other than its first one lie in the month and are rejected by the window
filter of the monthly report. -/
theorem monthWindow_excludes_last_second (year month : Int) (date : Time)
    (h1 : 1 ≤ month) (h12 : month ≤ 12)
    (hlo : nextMonthStart year month - Second < date)
    (hhi : date < nextMonthStart year month) :
    inCalendarMonth year month date ∧
    inWindow (monthStart year month) (monthEnd year month) date = false := by
  have hday := monthStart_add_day_le year month h1 h12
  have hD : Second < 28 * Day := by decide
  refine ⟨⟨by linarith, hhi⟩, ?_⟩
  rw [Bool.eq_false_iff]
  intro hin
  have := (inWindow_month_iff year month date).mp hin
  linarith [this.2]

/-- Every instant the window filter accepts lies in the calendar month. -/
theorem inWindow_subset_month (year month : Int) (date : Time)
    (hin : inWindow (monthStart year month) (monthEnd year month) date = true) :
    inCalendarMonth year month date := by
  have h := (inWindow_month_iff year month date).mp hin
  have hS : 0 < Second := by decide
  exact ⟨h.1, by linarith [h.2]⟩

/-! ## Deleting transactions -/

theorem find_ownedTransaction_eq_none {s : Store} {userID id : Nat} :
    s.transactions.find? (ownedTransaction userID id) = none ↔
      ¬ ∃ t ∈ s.transactions, t.ID = id ∧ t.UserID = userID ∧ t.DeletedAt = none := by
  simp [List.find?_eq_none, ownedTransaction, Option.isNone_iff_eq_none]

theorem find_ownedTransaction_eq_some {rows : List Transaction} {userID id : Nat}
    (hpk : (rows.map Transaction.ID).Nodup) {t : Transaction} (ht : t ∈ rows)
    (hid : t.ID = id) (hu : t.UserID = userID) (hlive : t.DeletedAt = none) :
    rows.find? (ownedTransaction userID id) = some t := by
  cases hfind : rows.find? (ownedTransaction userID id) with
  | none =>
    rw [List.find?_eq_none] at hfind
    exact absurd (ownedTransaction_iff.mpr ⟨hid, hu, hlive⟩) (hfind t ht)
  | some t0 =>
    have h0 := ownedTransaction_iff.mp (List.find?_some hfind)
    have hm0 := List.mem_of_find?_eq_some hfind
    rw [List.inj_on_of_nodup_map hpk hm0 ht (by rw [h0.1, hid])]

theorem softDeleteTransaction_eq {rows : List Transaction} (now : Time)
    (hpk : (rows.map Transaction.ID).Nodup) {t : Transaction} (ht : t ∈ rows)
    (hlive : t.DeletedAt = none) :
    softDeleteTransaction now t.ID rows =
      rows.map (fun r => if r = t then { r with DeletedAt := some now } else r) := by
  unfold softDeleteTransaction
  apply List.map_congr_left
  intro r hr
  by_cases hrt : r = t
  · subst hrt
    simp [hlive]
  · have hne : r.ID ≠ t.ID := fun h => hrt (List.inj_on_of_nodup_map hpk hr ht h)
    simp [hne, hrt]

theorem find_owned_after_softDelete {rows : List Transaction} (now : Time)
    (userID : Nat) (hpk : (rows.map Transaction.ID).Nodup) {t : Transaction} (ht : t ∈ rows) :
    (rows.map (fun r => if r = t then { r with DeletedAt := some now } else r)).find?
      (ownedTransaction userID t.ID) = none := by
  rw [List.find?_eq_none]
  intro r1 hr1
  obtain ⟨r, hr, rfl⟩ := List.mem_map.mp hr1
  by_cases hrt : r = t
  · simp [hrt, ownedTransaction]
  · have hne : r.ID ≠ t.ID := fun h => hrt (List.inj_on_of_nodup_map hpk hr ht h)
    simp [hrt, ownedTransaction, hne]

/-- C12: for every store with unique transaction ids, user `U` and id:
`DeleteTransaction(U, id)` answers 404 and returns the store it was given exactly
when no non-deleted transaction with that id belongs to `U`; otherwise it answers 200
and the new store differs from the old one only in that this one transaction has
`deleted_at` set; a second `DeleteTransaction(U, id)` then answers 404 and changes
nothing. -/
theorem deleteTransaction_spec (s : Store) (now : Time) (userID id : Nat)
    (hpk : (s.transactions.map Transaction.ID).Nodup) :
    (((DeleteTransaction s now userID id).1.status = StatusNotFound ∧
        (DeleteTransaction s now userID id).2 = s) ↔
      ¬ ∃ t ∈ s.transactions, t.ID = id ∧ t.UserID = userID ∧ t.DeletedAt = none) ∧
    (∀ t ∈ s.transactions, t.ID = id → t.UserID = userID → t.DeletedAt = none →
      (DeleteTransaction s now userID id).1 =
        .json StatusOK "Transaction deleted successfully" ∧
      (DeleteTransaction s now userID id).2 =
        { s with transactions := s.transactions.map (fun r =>
            if r = t then { r with DeletedAt := some now } else r) } ∧
      ∀ later : Time,
        (DeleteTransaction (DeleteTransaction s now userID id).2 later userID id).1.status =
          StatusNotFound ∧
        (DeleteTransaction (DeleteTransaction s now userID id).2 later userID id).2 =
          (DeleteTransaction s now userID id).2) := by
  constructor
  · constructor
    · rintro ⟨hstatus, _⟩ ⟨t, ht, hid, hu, hlive⟩
      have hfind := find_ownedTransaction_eq_some hpk ht hid hu hlive
      simp [DeleteTransaction, hfind, Reply.status, StatusOK, StatusNotFound] at hstatus
    · intro hno
      have hfind := find_ownedTransaction_eq_none.mpr hno
      simp [DeleteTransaction, hfind, Reply.status]
  · intro t ht hid hu hlive
    have hfind := find_ownedTransaction_eq_some hpk ht hid hu hlive
    have hstore : (DeleteTransaction s now userID id).2 =
        { s with transactions := s.transactions.map (fun r =>
            if r = t then { r with DeletedAt := some now } else r) } := by
      simp only [DeleteTransaction, hfind]
      rw [softDeleteTransaction_eq now hpk ht hlive]
    refine ⟨by simp [DeleteTransaction, hfind], hstore, ?_⟩
    intro later
    have hnone := find_owned_after_softDelete now userID hpk ht
    rw [hid] at hnone
    rw [hstore]
    simp [DeleteTransaction, hnone, Reply.status]

/-- C12 on `storeSharedFood`: user 7 deletes transaction 1, and a second attempt is
answered 404. -/
theorem deleteTransaction_spec_witness :
    (storeSharedFood.transactions.map Transaction.ID).Nodup ∧
    (DeleteTransaction storeSharedFood 9 7 1).1 =
      .json StatusOK "Transaction deleted successfully" ∧
    (DeleteTransaction (DeleteTransaction storeSharedFood 9 7 1).2 10 7 1).1.status =
      StatusNotFound :=
  have hpk : (storeSharedFood.transactions.map Transaction.ID).Nodup := by decide
  have h := (deleteTransaction_spec storeSharedFood 9 7 1 hpk).2
    { ID := 1, CreatedAt := 5, UpdatedAt := 5, DeletedAt := none, Amount := 40,
      Description := "lunch", Date := 5, Type_ := "expense", UserID := 7,
      CategoryID := 1 }
    (List.mem_cons_self _ _) rfl rfl rfl
  ⟨hpk, h.1, (h.2.2 10).1⟩

/-! ## Reading back what was written -/

theorem find_map_of_unique {α : Type} (key : α → Nat) (f : α → α) (p : α → Bool)
    {rows : List α} (hpk : (rows.map key).Nodup) {x0 : α} (h0 : x0 ∈ rows)
    (hp0 : p (f x0) = true) (hpne : ∀ r ∈ rows, key r ≠ key x0 → p (f r) = false) :
    (rows.map f).find? p = some (f x0) := by
  induction rows with
  | nil => simp at h0
  | cons r rest ih =>
    simp only [List.map_cons, List.nodup_cons, List.mem_map, not_exists, not_and] at hpk
    by_cases hr : r = x0
    · subst hr
      simp [List.find?_cons, hp0]
    · have hmem : x0 ∈ rest := by
        rcases List.mem_cons.mp h0 with h | h
        · exact absurd h.symm hr
        · exact h
      have hkey : key r ≠ key x0 := fun h => hpk.1 x0 hmem h.symm
      have hfalse := hpne r (List.mem_cons_self _ _) hkey
      simp only [List.map_cons, List.find?_cons, hfalse]
      exact ih hpk.2 hmem (fun r1 hr1 => hpne r1 (List.mem_cons_of_mem _ hr1))

theorem find_of_unique {α : Type} (key : α → Nat) (p : α → Bool)
    {rows : List α} (hpk : (rows.map key).Nodup) {x0 : α} (h0 : x0 ∈ rows)
    (hp0 : p x0 = true) (hpne : ∀ r ∈ rows, key r ≠ key x0 → p r = false) :
    rows.find? p = some x0 := by
  have h := find_map_of_unique key id p hpk h0 hp0 hpne
  simpa using h

theorem find_append_fresh {α : Type} (p : α → Bool) {rows : List α} {x : α}
    (hold : ∀ r ∈ rows, p r = false) (hx : p x = true) :
    (rows ++ [x]).find? p = some x := by
  have hnone : rows.find? p = none := by
    rw [List.find?_eq_none]
    intro r hr
    simp [hold r hr]
  simp [List.find?_append, hnone, List.find?_cons, hx]

theorem find_live_category_id {cats : List Category} {userID cid : Nat} {c : Category}
    (hfind : cats.find? (visibleCategory userID cid) = some c) :
    ∃ c1, cats.find? (fun c => c.ID == cid && c.DeletedAt.isNone) = some c1 ∧
      c1.ID = cid := by
  have hp := visibleCategory_iff.mp (List.find?_some hfind)
  have hm := List.mem_of_find?_eq_some hfind
  cases hpre : cats.find? (fun c => c.ID == cid && c.DeletedAt.isNone) with
  | none =>
    rw [List.find?_eq_none] at hpre
    exact absurd (by simp [hp.1, hp.2.2]) (hpre c hm)
  | some c1 =>
    have h1 := List.find?_some hpre
    simp only [Bool.and_eq_true, beq_iff_eq] at h1
    exact ⟨c1, rfl, h1.1⟩

/-- Reading a category back after `CreateCategory`: name and type are those of the
input, the icon is the input's unless that is empty, in which case it is the
placeholder. -/
theorem createCategory_get (s : Store) (now : Time) (userID : Nat) (hwf : s.WF)
    (input : CategoryInput) (resp : CategoryResponse) (st : Nat)
    (hok : (CreateCategory s now userID input).1 = .json st resp) :
    ∃ r, GetCategory (CreateCategory s now userID input).2 userID resp.ID =
        .json StatusOK r ∧
      r.Name = input.Name ∧ r.Type_ = input.Type_ ∧
      r.Icon = (if input.Icon = "" then "📦" else input.Icon) := by
  unfold CreateCategory at hok ⊢
  split at hok
  · simp at hok
  · rename_i hbind
    simp only [Reply.json.injEq] at hok
    obtain ⟨_, rfl⟩ := hok
    simp only [hbind, if_false, Bool.false_eq_true]
    have hfind : ∀ cat : Category, cat.ID = s.categorySeq → cat.UserID = some userID →
        cat.DeletedAt = none →
        (s.categories ++ [cat]).find? (visibleCategory userID s.categorySeq) = some cat := by
      intro cat h1 h2 h3
      apply find_append_fresh
      · intro r hr
        have := hwf.2.2.1 r hr
        have hne : r.ID ≠ s.categorySeq := by omega
        simp [visibleCategory, hne]
      · simp [visibleCategory, h1, h2, h3]
    have key := hfind
      { ID := s.categorySeq, CreatedAt := now, UpdatedAt := now, DeletedAt := none,
        Name := input.Name, Type_ := input.Type_,
        Icon := if input.Icon == "" then "📦" else input.Icon,
        UserID := some userID } rfl rfl rfl
    simp only [GetCategory, Category.ToResponse, key]
    exact ⟨_, rfl, rfl, rfl, by simp⟩

/-- Reading a category back after `UpdateCategory`: name and type are those of the
input, the icon is the input's unless that is empty, in which case the icon the
category had before is kept. -/
theorem updateCategory_get (s : Store) (now : Time) (userID : Nat) (hwf : s.WF)
    (id : Nat) (input : CategoryInput) (resp : CategoryResponse) (st : Nat)
    (hok : (UpdateCategory s now userID id input).1 = .json st resp) :
    ∃ old r, GetCategory s userID id = .json StatusOK old ∧
      GetCategory (UpdateCategory s now userID id input).2 userID id = .json StatusOK r ∧
      r.Name = input.Name ∧ r.Type_ = input.Type_ ∧
      r.Icon = (if input.Icon = "" then old.Icon else input.Icon) := by
  cases hfind0 : s.categories.find? (ownedCategory userID id) with
  | none => simp [UpdateCategory, hfind0] at hok
  | some c0 =>
    have h0 := ownedCategory_iff.mp (List.find?_some hfind0)
    have hm0 := List.mem_of_find?_eq_some hfind0
    by_cases hbind : bindCategoryInput input = true
    · have hold : s.categories.find? (visibleCategory userID id) = some c0 := by
        apply find_of_unique Category.ID _ hwf.1 hm0
        · exact visibleCategory_iff.mpr ⟨h0.1, Or.inr h0.2.1, h0.2.2⟩
        · intro r _ hne
          have hne2 : r.ID ≠ id := by rw [← h0.1]; exact hne
          simp [visibleCategory, hne2]
      have hnew : ∀ c1 : Category, c1.ID = c0.ID → c1.UserID = some userID →
          c1.DeletedAt = none →
          (saveCategory now c1 s.categories).find? (visibleCategory userID id) =
            some { c1 with UpdatedAt := now } := by
        intro c1 h1 h2 h3
        have hf := find_map_of_unique Category.ID
          (fun r => if r.ID == c1.ID && r.DeletedAt.isNone then { c1 with UpdatedAt := now }
            else r)
          (visibleCategory userID id) hwf.1 hm0
          (by simp [h1, h0.2.2, visibleCategory, h2, h3, h0.1])
          (by
            intro r _ hne
            have hne1 : r.ID ≠ c1.ID := by rw [h1]; exact hne
            have hne2 : r.ID ≠ id := by rw [← h0.1]; exact hne
            simp [hne1, visibleCategory, hne2])
        simpa [saveCategory, h1, h0.2.2] using hf
      have key := hnew
        { c0 with Name := input.Name, Type_ := input.Type_,
                  Icon := if input.Icon != "" then input.Icon else c0.Icon }
        rfl h0.2.1 h0.2.2
      refine ⟨c0.ToResponse,
        ({ c0 with Name := input.Name, Type_ := input.Type_,
                   Icon := if input.Icon != "" then input.Icon else c0.Icon,
                   UpdatedAt := now } : Category).ToResponse, ?_, ?_, ?_⟩
      · simp [GetCategory, hold]
      · simp only [UpdateCategory, hfind0, hbind, GetCategory]
        simp only [Bool.not_true, Bool.false_eq_true, if_false, key]
      · by_cases hicon : input.Icon = "" <;> simp [Category.ToResponse, hicon]
    · simp [UpdateCategory, hfind0, hbind] at hok

/-- Reading a transaction back after `CreateTransaction`: amount, description,
date and type are those of the input and the joined category has the input's
category id. -/
theorem createTransaction_get (s : Store) (now : Time) (userID : Nat) (hwf : s.WF)
    (input : TransactionInput) (resp : TransactionResponse) (st : Nat)
    (hok : (CreateTransaction s now userID input).1 = .json st resp) :
    ∃ r, GetTransaction (CreateTransaction s now userID input).2 userID resp.ID =
        .json StatusOK r ∧
      r.Amount = input.Amount ∧ r.Description = input.Description ∧
      r.Date = input.Date ∧ r.Type_ = input.Type_ ∧ r.Category.ID = input.CategoryID := by
  by_cases hbind : bindTransactionInput input = true
  · cases hfindc : s.categories.find? (visibleCategory userID input.CategoryID) with
    | none => simp [CreateTransaction, hbind, hfindc] at hok
    | some c =>
      obtain ⟨c1, hpre, hc1⟩ := find_live_category_id hfindc
      have hfresh : ∀ (p : Transaction → Bool) (tx : Transaction),
          tx.ID = s.transactionSeq → (∀ r, p r = true → r.ID = s.transactionSeq) →
          p tx = true → (s.transactions ++ [tx]).find? p = some tx := by
        intro p tx _ hp hptx
        apply find_append_fresh _ _ hptx
        intro r hr
        have hlt := hwf.2.2.2 r hr
        cases hpr : p r with
        | false => rfl
        | true =>
          have := hp r hpr
          omega
      have hreload := hfresh (fun r => r.ID == s.transactionSeq && r.DeletedAt.isNone)
        { ID := s.transactionSeq, CreatedAt := now, UpdatedAt := now, DeletedAt := none,
          Amount := input.Amount, Description := input.Description, Date := input.Date,
          Type_ := input.Type_, UserID := userID, CategoryID := input.CategoryID }
        rfl (by intro r hr; simp only [Bool.and_eq_true, beq_iff_eq] at hr; exact hr.1)
        (by simp)
      have hget := hfresh (ownedTransaction userID s.transactionSeq)
        { ID := s.transactionSeq, CreatedAt := now, UpdatedAt := now, DeletedAt := none,
          Amount := input.Amount, Description := input.Description, Date := input.Date,
          Type_ := input.Type_, UserID := userID, CategoryID := input.CategoryID }
        rfl (by intro r hr; exact (ownedTransaction_iff.mp hr).1)
        (by simp [ownedTransaction])
      simp only [CreateTransaction, hbind, hfindc, Bool.not_true, Bool.false_eq_true,
        if_false, Reply.json.injEq, reloadResponse, hreload, Option.getD_some,
        preloadCategory, hpre] at hok
      obtain ⟨_, rfl⟩ := hok
      simp only [CreateTransaction, hbind, hfindc, Bool.not_true, Bool.false_eq_true,
        if_false, GetTransaction, Transaction.ToResponse, hget, preloadCategory, hpre]
      exact ⟨_, rfl, rfl, rfl, rfl, rfl, hc1⟩
  · simp [CreateTransaction, hbind] at hok

/-- Reading a transaction back after `UpdateTransaction`: amount, description,
date and type are those of the new input and the joined category has the new
category id. -/
theorem updateTransaction_get (s : Store) (now : Time) (userID : Nat) (hwf : s.WF)
    (id : Nat) (input : TransactionInput) (resp : TransactionResponse) (st : Nat)
    (hok : (UpdateTransaction s now userID id input).1 = .json st resp) :
    ∃ r, GetTransaction (UpdateTransaction s now userID id input).2 userID id =
        .json StatusOK r ∧
      r.Amount = input.Amount ∧ r.Description = input.Description ∧
      r.Date = input.Date ∧ r.Type_ = input.Type_ ∧ r.Category.ID = input.CategoryID := by
  cases hfind0 : s.transactions.find? (ownedTransaction userID id) with
  | none => simp [UpdateTransaction, hfind0] at hok
  | some t0 =>
    have h0 := ownedTransaction_iff.mp (List.find?_some hfind0)
    have hm0 := List.mem_of_find?_eq_some hfind0
    by_cases hbind : bindTransactionInput input = true
    · cases hfindc : s.categories.find? (visibleCategory userID input.CategoryID) with
      | none => simp [UpdateTransaction, hfind0, hbind, hfindc] at hok
      | some c =>
        obtain ⟨c1, hpre, hc1⟩ := find_live_category_id hfindc
        have hnew : ∀ t1 : Transaction, t1.ID = t0.ID → t1.UserID = userID →
            t1.DeletedAt = none →
            (saveTransaction now t1 s.transactions).find? (ownedTransaction userID id) =
              some { t1 with UpdatedAt := now } := by
          intro t1 h1 h2 h3
          have hf := find_map_of_unique Transaction.ID
            (fun r => if r.ID == t1.ID && r.DeletedAt.isNone then { t1 with UpdatedAt := now }
              else r)
            (ownedTransaction userID id) hwf.2.1 hm0
            (by simp [h1, h0.2.2, ownedTransaction, h2, h3, h0.1])
            (by
              intro r _ hne
              have hne1 : r.ID ≠ t1.ID := by rw [h1]; exact hne
              have hne2 : r.ID ≠ id := by rw [← h0.1]; exact hne
              simp [hne1, ownedTransaction, hne2])
          simpa [saveTransaction, h1, h0.2.2] using hf
        have key := hnew
          { t0 with Amount := input.Amount, Description := input.Description,
                    Date := input.Date, Type_ := input.Type_,
                    CategoryID := input.CategoryID }
          rfl h0.2.1 h0.2.2
        simp only [UpdateTransaction, hfind0, hbind, hfindc, Bool.not_true,
          Bool.false_eq_true, if_false, GetTransaction, Transaction.ToResponse, key,
          preloadCategory, hpre]
        exact ⟨_, rfl, rfl, rfl, rfl, rfl, hc1⟩
    · simp [UpdateTransaction, hfind0, hbind] at hok

/-- C13, as the code has it: on a store with unique primary keys, a `get` right
after a successful `create` or `update` returns the input's fields, for
transactions all of them (amount, description, date, type, category id) and for
categories name and type; the icon of a category is the input's when that is not
empty, and otherwise the placeholder after `create` and the previous icon after
`update`. -/
theorem write_then_get (s : Store) (now : Time) (userID : Nat) (hwf : s.WF) :
    (∀ (input : CategoryInput) (st : Nat) (resp : CategoryResponse),
      (CreateCategory s now userID input).1 = .json st resp →
      ∃ r, GetCategory (CreateCategory s now userID input).2 userID resp.ID =
          .json StatusOK r ∧
        r.Name = input.Name ∧ r.Type_ = input.Type_ ∧
        r.Icon = (if input.Icon = "" then "📦" else input.Icon)) ∧
    (∀ (id : Nat) (input : CategoryInput) (st : Nat) (resp : CategoryResponse),
      (UpdateCategory s now userID id input).1 = .json st resp →
      ∃ old r, GetCategory s userID id = .json StatusOK old ∧
        GetCategory (UpdateCategory s now userID id input).2 userID id = .json StatusOK r ∧
        r.Name = input.Name ∧ r.Type_ = input.Type_ ∧
        r.Icon = (if input.Icon = "" then old.Icon else input.Icon)) ∧
    (∀ (input : TransactionInput) (st : Nat) (resp : TransactionResponse),
      (CreateTransaction s now userID input).1 = .json st resp →
      ∃ r, GetTransaction (CreateTransaction s now userID input).2 userID resp.ID =
          .json StatusOK r ∧
        r.Amount = input.Amount ∧ r.Description = input.Description ∧
        r.Date = input.Date ∧ r.Type_ = input.Type_ ∧
        r.Category.ID = input.CategoryID) ∧
    (∀ (id : Nat) (input : TransactionInput) (st : Nat) (resp : TransactionResponse),
      (UpdateTransaction s now userID id input).1 = .json st resp →
      ∃ r, GetTransaction (UpdateTransaction s now userID id input).2 userID id =
          .json StatusOK r ∧
        r.Amount = input.Amount ∧ r.Description = input.Description ∧
        r.Date = input.Date ∧ r.Type_ = input.Type_ ∧
        r.Category.ID = input.CategoryID) := by
  refine ⟨?_, ?_, ?_, ?_⟩
  · intro input st resp hok
    exact createCategory_get s now userID hwf input resp st hok
  · intro id input st resp hok
    exact updateCategory_get s now userID hwf id input resp st hok
  · intro input st resp hok
    exact createTransaction_get s now userID hwf input resp st hok
  · intro id input st resp hok
    exact updateTransaction_get s now userID hwf id input resp st hok

/-- C13 on `storeSharedFood`: user 7 creates the category "Books" without an icon
and reads it back with the placeholder icon, and books a transaction in category 1
and reads it back. -/
theorem write_then_get_witness :
    storeSharedFood.WF ∧
    (∃ r, GetCategory (CreateCategory storeSharedFood 10 7 booksInput).2 7 2 =
        .json StatusOK r ∧
      r.Name = "Books" ∧ r.Type_ = "expense" ∧ r.Icon = "📦") ∧
    (∃ r, GetTransaction
        (CreateTransaction storeSharedFood 11 7 ⟨25, "novel", 11, "expense", 1⟩).2 7 2 =
        .json StatusOK r ∧
      r.Amount = 25 ∧ r.Description = "novel" ∧ r.Date = 11 ∧ r.Type_ = "expense" ∧
      r.Category.ID = 1) :=
  have hwf : storeSharedFood.WF := by
    simp [Store.WF, storeSharedFood]
  ⟨hwf,
    (write_then_get storeSharedFood 10 7 hwf).1 booksInput StatusCreated
      { ID := 2, Name := "Books", Type_ := "expense", Icon := "📦", UserID := some 7,
        CreatedAt := 10 } (by decide),
    (write_then_get storeSharedFood 11 7 hwf).2.2.1 ⟨25, "novel", 11, "expense", 1⟩
      StatusCreated
      { ID := 2, Amount := 25, Description := "novel", Date := 11, Type_ := "expense",
        Category := { ID := 1, Name := "Food", Type_ := "expense", Icon := "🍔",
                      UserID := none, CreatedAt := 0 },
        CreatedAt := 11 } (by decide)⟩

/-- C13, as stated, fails for the icon of a category: `booksInput` passes the
binding with an empty icon, `CreateCategory` succeeds with id 2, and `GetCategory`
right after returns the icon "📦", not the input's; an `UpdateCategory` with an
empty icon then succeeds and `GetCategory` still returns "📦". -/
theorem write_then_get_counterexample :
    bindCategoryInput booksInput = true ∧ booksInput.Icon = "" ∧
    (CreateCategory storeSharedFood 10 7 booksInput).1 =
      .json StatusCreated { ID := 2, Name := "Books", Type_ := "expense", Icon := "📦",
                            UserID := some 7, CreatedAt := 10 } ∧
    GetCategory (CreateCategory storeSharedFood 10 7 booksInput).2 7 2 =
      .json StatusOK { ID := 2, Name := "Books", Type_ := "expense", Icon := "📦",
                       UserID := some 7, CreatedAt := 10 } ∧
    ("📦" : String) ≠ booksInput.Icon ∧
    (UpdateCategory (CreateCategory storeSharedFood 10 7 booksInput).2 11 7 2
      ⟨"Novels", "expense", ""⟩).1.status = StatusOK ∧
    GetCategory (UpdateCategory (CreateCategory storeSharedFood 10 7 booksInput).2 11 7 2
      ⟨"Novels", "expense", ""⟩).2 7 2 =
      .json StatusOK { ID := 2, Name := "Novels", Type_ := "expense", Icon := "📦",
                       UserID := some 7, CreatedAt := 10 } := by
  decide

/-! ## Pages beyond the last one -/

/-- C11 at the failing input: for `page = 2^62 + 1` and `limit = 4` the product
`(page - 1) * limit` is `2^64`, which wraps to offset 0; user 7 of `storeSharedFood`
has one transaction, so `totalPages = 1 < page`, and the answer is 200 with that
transaction in the data list instead of an empty list. -/
theorem getTransactions_page_overflow :
    normalizePage hugePageFilter.Page = 4611686018427387905 ∧
    normalizeLimit hugePageFilter.Limit = 4 ∧
    pageOffset 4611686018427387905 4 = 0 ∧
    ∃ (data : List TransactionResponse) (pagination : Pagination),
      GetTransactions storeSharedFood 7 hugePageFilter = .json StatusOK (data, pagination) ∧
      pagination.total = 1 ∧ pagination.totalPages = 1 ∧
      pagination.totalPages < pagination.page ∧
      data.map TransactionResponse.ID = [1] ∧
      ¬ (pagination.total ≤ pageOffset pagination.page pagination.limit) :=
  ⟨by decide, by decide, by decide, _, _, rfl, by decide, by decide, by decide, by decide,
    by decide⟩

theorem le_totalPages_mul {total limit : Int} (h0 : 0 ≤ total) (h1 : 1 ≤ limit)
    (h2 : total + limit ≤ 2 ^ 63) : total ≤ totalPages total limit * limit := by
  have hlt : total + limit - 1 < (totalPages total limit + 1) * limit := by
    rw [totalPages_eq h0 h1 h2]
    exact Int.lt_ediv_add_one_mul_self _ (by omega)
  nlinarith

theorem pageOffset_eq {page limit : Int} (hp : 1 ≤ page) (hl : 1 ≤ limit)
    (hfit : (page - 1) * limit < 2 ^ 63) : pageOffset page limit = (page - 1) * limit := by
  have hnonneg : 0 ≤ (page - 1) * limit := mul_nonneg (by omega) (by omega)
  have hle : page - 1 ≤ (page - 1) * limit := by nlinarith
  unfold pageOffset
  rw [wrap64_of_range (by norm_num; omega) (lt_of_le_of_lt hle hfit),
    wrap64_of_range (by norm_num at hnonneg ⊢; omega) hfit]

/-- Where the product `(page - 1) * limit` and the sum `total + limit` fit in
`int64`, a page beyond `totalPages` is answered 200 with an empty data list, and
the offset is at least the number of matching rows. -/
theorem getTransactions_beyond_range_empty (s : Store) (userID : Nat)
    (filter : TransactionFilter)
    (hbind : (filter.Type_ == "" || oneofIncomeExpense filter.Type_) = true)
    (hfit : (normalizePage filter.Page - 1) * normalizeLimit filter.Limit < 2 ^ 63)
    (htotal : ((s.transactions.filter (listedTransaction userID filter)).length : Int) +
      normalizeLimit filter.Limit ≤ 2 ^ 63)
    (hbeyond : totalPages (s.transactions.filter (listedTransaction userID filter)).length
      (normalizeLimit filter.Limit) < normalizePage filter.Page) :
    GetTransactions s userID filter =
      .json StatusOK ([], paginationOf filter.Page filter.Limit
        (s.transactions.filter (listedTransaction userID filter)).length) ∧
    ((s.transactions.filter (listedTransaction userID filter)).length : Int) ≤
      pageOffset (normalizePage filter.Page) (normalizeLimit filter.Limit) := by
  obtain ⟨hl1, _⟩ := normalizeLimit_range filter.Limit
  have hp1 : 1 ≤ normalizePage filter.Page := by
    unfold normalizePage
    split <;> omega
  have hn0 : (0 : Int) ≤ (s.transactions.filter (listedTransaction userID filter)).length :=
    Int.natCast_nonneg _
  have hoff := pageOffset_eq hp1 hl1 hfit
  have hle := le_totalPages_mul hn0 hl1 htotal
  have hskip : ((s.transactions.filter (listedTransaction userID filter)).length : Int) ≤
      pageOffset (normalizePage filter.Page) (normalizeLimit filter.Limit) := by
    rw [hoff]
    have h1 : totalPages (s.transactions.filter (listedTransaction userID filter)).length
        (normalizeLimit filter.Limit) ≤ normalizePage filter.Page - 1 := by omega
    have h2 := mul_le_mul_of_nonneg_right h1 (by omega : (0 : Int) ≤ normalizeLimit filter.Limit)
    omega
  refine ⟨?_, hskip⟩
  have hempty : limitOffset (normalizeLimit filter.Limit)
      (pageOffset (normalizePage filter.Page) (normalizeLimit filter.Limit))
      ((s.transactions.filter (listedTransaction userID filter)).insertionSort recentFirst)
      = [] := by
    unfold limitOffset
    rw [List.take_eq_nil_iff]
    right
    rw [List.drop_eq_nil_iff, List.length_insertionSort]
    split
    · omega
    · omega
  simp only [GetTransactions, hbind, Bool.not_true, Bool.false_eq_true, if_false, hempty,
    List.map_nil]

/-! ## Consistency of the monthly breakdown with the totals -/

theorem sum_ite_of_not_mem {κ M : Type} [BEq κ] [LawfulBEq κ] [AddCommMonoid M]
    (a : κ) (v : M) (ks : List κ) (h : a ∉ ks) :
    (ks.map (fun k => if a == k then v else 0)).sum = 0 := by
  induction ks with
  | nil => simp
  | cons k rest ih =>
    have hne : a ≠ k := fun heq => h (heq ▸ List.mem_cons_self _ _)
    have hrest : a ∉ rest := fun hm => h (List.mem_cons_of_mem _ hm)
    simp [hne, ih hrest]

theorem sum_ite_of_mem {κ M : Type} [BEq κ] [LawfulBEq κ] [AddCommMonoid M]
    (a : κ) (v : M) (ks : List κ) (hnd : ks.Nodup) (h : a ∈ ks) :
    (ks.map (fun k => if a == k then v else 0)).sum = v := by
  induction ks with
  | nil => simp at h
  | cons k rest ih =>
    rw [List.nodup_cons] at hnd
    by_cases hak : a = k
    · subst hak
      simp [sum_ite_of_not_mem a v rest hnd.1]
    · have hrest : a ∈ rest := by
        rcases List.mem_cons.mp h with h1 | h1
        · exact absurd h1 hak
        · exact h1
      simp [hak, ih hnd.2 hrest]

/-- Summing a quantity group by group gives its sum over all rows. -/
theorem sum_groups {α κ M : Type} [BEq κ] [LawfulBEq κ] [AddCommMonoid M]
    (f : α → κ) (g : α → M) (rows : List α) (ks : List κ) (hnd : ks.Nodup)
    (hmem : ∀ r ∈ rows, f r ∈ ks) :
    (ks.map (fun k => ((rows.filter (fun r => f r == k)).map g).sum)).sum =
      (rows.map g).sum := by
  induction rows with
  | nil => simp
  | cons r rest ih =>
    have hstep : ∀ k, ((List.filter (fun r => f r == k) (r :: rest)).map g).sum =
        (if f r == k then g r else 0) + ((rest.filter (fun r => f r == k)).map g).sum := by
      intro k
      by_cases hk : f r = k <;> simp [List.filter_cons, hk]
    simp only [hstep, List.sum_map_add, List.map_cons, List.sum_cons]
    rw [sum_ite_of_mem (f r) (g r) ks hnd (hmem r (List.mem_cons_self _ _)),
      ih (fun r1 hr1 => hmem r1 (List.mem_cons_of_mem _ hr1))]

theorem groupBreakdown_totals (rows : List (Transaction × Category)) :
    ((groupBreakdown rows).map CategoryBreakdown.TotalAmount).sum =
      (rows.map (fun r => r.1.Amount)).sum := by
  have h := sum_groups groupKey (fun r : Transaction × Category => r.1.Amount) rows
    ((rows.map groupKey).dedup) (List.nodup_dedup _)
    (fun r hr => List.mem_dedup.mpr (List.mem_map_of_mem _ hr))
  rw [← h]
  simp [groupBreakdown, List.map_map, Function.comp_def]

theorem groupBreakdown_counts (rows : List (Transaction × Category)) :
    ((groupBreakdown rows).map CategoryBreakdown.Count).sum = rows.length := by
  have h := sum_groups groupKey (fun _ : Transaction × Category => (1 : Nat)) rows
    ((rows.map groupKey).dedup) (List.nodup_dedup _)
    (fun r hr => List.mem_dedup.mpr (List.mem_map_of_mem _ hr))
  simp only [List.map_const', List.sum_replicate, smul_eq_mul, mul_one, List.length_map] at h
  rw [← h]
  simp [groupBreakdown, List.map_map, Function.comp_def]

theorem joinCategories_fst {txs : List Transaction} {cats : List Category}
    (hpk : (cats.map Category.ID).Nodup)
    (hcat : ∀ t ∈ txs, ∃ c ∈ cats, c.ID = t.CategoryID) :
    (joinCategories txs cats).map Prod.fst = txs := by
  induction txs with
  | nil => simp [joinCategories]
  | cons t ts ih =>
    have hcons : joinCategories (t :: ts) cats =
        (cats.filter (fun c => c.ID == t.CategoryID)).map (fun c => (t, c)) ++
          joinCategories ts cats := by
      simp [joinCategories]
    obtain ⟨c, hc, hid⟩ := hcat t (List.mem_cons_self _ _)
    have hone : cats.filter (fun c => c.ID == t.CategoryID) = [c] := by
      rw [← hid]
      exact filter_id_eq_singleton hpk hc
    rw [hcons, hone, List.map_append, ih (fun t1 ht1 => hcat t1 (List.mem_cons_of_mem _ ht1))]
    rfl

theorem windowTransactionsOfType_eq_filter (s : Store) (userID : Nat) (type : String)
    (startDate endDate : Time) :
    windowTransactionsOfType s userID type startDate endDate =
      (windowTransactions s userID startDate endDate).filter (fun t => t.Type_ == type) := by
  unfold windowTransactionsOfType windowTransactions
  rw [List.filter_filter]
  apply List.filter_congr
  intro t _
  rw [Bool.eq_iff_iff]
  simp only [Bool.and_eq_true, beq_iff_eq]
  tauto

theorem sum_income_add_expense (l : List Transaction)
    (htype : ∀ t ∈ l, t.Type_ = "income" ∨ t.Type_ = "expense") :
    ((l.filter (fun t => t.Type_ == "income")).map Transaction.Amount).sum +
      ((l.filter (fun t => t.Type_ == "expense")).map Transaction.Amount).sum =
      (l.map Transaction.Amount).sum := by
  induction l with
  | nil => simp
  | cons t rest ih =>
    have hrest := ih (fun t1 ht1 => htype t1 (List.mem_cons_of_mem _ ht1))
    have hne : ("income" : String) ≠ "expense" := by decide
    rcases htype t (List.mem_cons_self _ _) with h | h
    · simp only [List.filter_cons, h, beq_self_eq_true, if_true, List.map_cons,
        List.sum_cons, beq_iff_eq, hne, if_false]
      linarith
    · simp only [List.filter_cons, h, beq_self_eq_true, if_true, List.map_cons,
        List.sum_cons, beq_iff_eq, hne.symm, if_false]
      linarith

theorem foldl_add_num (q : CategorySummary → ℚ) (l : List CategorySummary)
    (h : ∀ e ∈ l, e.Percentage = .num (q e)) (a : ℚ) :
    l.foldl (fun (acc : F64) (e : CategorySummary) => acc.add e.Percentage) (F64.num a) =
      F64.num (a + (l.map q).sum) := by
  induction l generalizing a with
  | nil => simp
  | cons e rest ih =>
    have hadd : (F64.num a).add (F64.num (q e)) = F64.num (a + q e) := rfl
    rw [List.foldl_cons, h e (List.mem_cons_self _ _), hadd]
    rw [ih (fun e1 he1 => h e1 (List.mem_cons_of_mem _ he1)), List.map_cons, List.sum_cons,
      add_assoc]

theorem breakdownQuery_sums (s : Store) (txs : List Transaction)
    (hpk : (s.categories.map Category.ID).Nodup)
    (hcat : ∀ t ∈ txs, ∃ c ∈ s.categories, c.ID = t.CategoryID) :
    ((breakdownQuery s txs).map CategoryBreakdown.Count).sum = txs.length ∧
    ((breakdownQuery s txs).map CategoryBreakdown.TotalAmount).sum =
      (txs.map Transaction.Amount).sum := by
  have hperm : (breakdownQuery s txs).Perm (groupBreakdown (joinCategories txs s.categories)) :=
    List.perm_insertionSort totalDesc _
  have hfst := joinCategories_fst hpk hcat
  constructor
  · rw [(hperm.map CategoryBreakdown.Count).sum_eq, groupBreakdown_counts,
      ← List.length_map _ Prod.fst, hfst]
  · rw [(hperm.map CategoryBreakdown.TotalAmount).sum_eq, groupBreakdown_totals]
    have hmap : (joinCategories txs s.categories).map (fun r => r.1.Amount) =
        ((joinCategories txs s.categories).map Prod.fst).map Transaction.Amount := by
      simp [List.map_map, Function.comp_def]
    rw [hmap, hfst]

/-! ## The range of `float64` -/

theorem float64Bound_large : (10 : ℚ) ^ 9 < float64Bound := by
  unfold float64Bound
  norm_num

theorem fitsFloat64_iff {v : ℚ} :
    fitsFloat64 v = true ↔ -float64Bound < v ∧ v < float64Bound := by
  simp [fitsFloat64]

theorem fitsFloat64_small {v : ℚ} (h1 : -(10 ^ 9) ≤ v) (h2 : v ≤ 10 ^ 9) :
    fitsFloat64 v = true := by
  have hb := float64Bound_large
  rw [fitsFloat64_iff]
  constructor <;> linarith

theorem scanFloat64_of_fits {v : ℚ} (h : fitsFloat64 v = true) : scanFloat64 v = v := by
  simp [scanFloat64, h]

theorem ofRat_of_fits {v : ℚ} (h : fitsFloat64 v = true) : F64.ofRat v = .num v := by
  simp [F64.ofRat, h]

theorem coalesceSum_eq_scan (amounts : List ℚ) :
    coalesceSum amounts = scanFloat64 amounts.sum := by
  cases amounts with
  | nil => rfl
  | cons x xs => simp [coalesceSum, sqlSum, foldl_add_eq_sum]

theorem coalesceSum_of_fits {amounts : List ℚ} (h : fitsFloat64 amounts.sum = true) :
    coalesceSum amounts = amounts.sum := by
  rw [coalesceSum_eq_scan, scanFloat64_of_fits h]

theorem coalesceSum_nil : coalesceSum [] = 0 := by
  rw [coalesceSum_eq_scan]
  simp [scanFloat64]

theorem scanBreakdownRow_of_fits {row : CategoryBreakdown}
    (h : fitsFloat64 row.TotalAmount = true) : scanBreakdownRow row = row := by
  simp [scanBreakdownRow, h]

/-- The percentage of the handlers where nothing leaves the range of `float64`. -/
theorem percentage_of_fits {a t : ℚ} (ht : t ≠ 0) (hft : fitsFloat64 t = true)
    (hq : fitsFloat64 (a / t) = true) (hp : fitsFloat64 (a / t * 100) = true) :
    ((F64.num a).div (F64.ofRat t)).times100 = .num (a / t * 100) := by
  rw [ofRat_of_fits hft]
  simp only [F64.div, ht, if_false]
  rw [ofRat_of_fits hq]
  simp only [F64.times100]
  rw [ofRat_of_fits hp]

/-! ## The example of the monthly report, through the handler -/

theorem coalesceSum_hundred : coalesceSum [(100 : ℚ)] = 100 :=
  (coalesceSum_of_fits (fitsFloat64_small (by norm_num) (by norm_num))).trans (by norm_num)

theorem coalesceSum_forty : coalesceSum [(40 : ℚ)] = 40 :=
  (coalesceSum_of_fits (fitsFloat64_small (by norm_num) (by norm_num))).trans (by norm_num)

theorem percentage_hundred :
    ((F64.num 100).div (F64.ofRat (100 + 40))).times100 = .num (100 / 140 * 100) :=
  (percentage_of_fits (by norm_num) (fitsFloat64_small (by norm_num) (by norm_num))
    (fitsFloat64_small (by norm_num) (by norm_num))
    (fitsFloat64_small (by norm_num) (by norm_num))).trans (by norm_num)

theorem percentage_forty :
    ((F64.num 40).div (F64.ofRat (100 + 40))).times100 = .num (40 / 140 * 100) :=
  (percentage_of_fits (by norm_num) (fitsFloat64_small (by norm_num) (by norm_num))
    (fitsFloat64_small (by norm_num) (by norm_num))
    (fitsFloat64_small (by norm_num) (by norm_num))).trans (by norm_num)

theorem scanBreakdownRow_hundred (i : Nat) (n c : String) (k : Nat) :
    scanBreakdownRow
      { CategoryID := i, CategoryName := n, CategoryIcon := c, TotalAmount := 100,
        Count := k } =
      { CategoryID := i, CategoryName := n, CategoryIcon := c, TotalAmount := 100,
        Count := k } :=
  scanBreakdownRow_of_fits (fitsFloat64_small (by norm_num) (by norm_num))

theorem scanBreakdownRow_forty (i : Nat) (n c : String) (k : Nat) :
    scanBreakdownRow
      { CategoryID := i, CategoryName := n, CategoryIcon := c, TotalAmount := 40,
        Count := k } =
      { CategoryID := i, CategoryName := n, CategoryIcon := c, TotalAmount := 40,
        Count := k } :=
  scanBreakdownRow_of_fits (fitsFloat64_small (by norm_num) (by norm_num))

/-- C5, as the code has it: when the income of 100 is booked in a category other
than "Food", the monthly report for 2024-01 has `totalIncome = 100`,
`totalExpense = 40`, `balance = 60`, `transactionCount = 2` and a breakdown of two
entries in descending order of total: the category of the income with total 100
and percentage `100/140*100`, then "Food" with total 40 and percentage
`40/140*100`. -/
theorem monthlyReport_example (incomeCategory : Category) (hid : incomeCategory.ID ≠ 2) :
    GetMonthlyReport (storeJanuary incomeCategory) 7 "2024" "01" =
      .json StatusOK
        ({ Month := "January 2024", TotalIncome := 100, TotalExpense := 40, Balance := 60,
           TransactionCount := 2 },
         [{ CategoryID := incomeCategory.ID, CategoryName := incomeCategory.Name,
            CategoryIcon := incomeCategory.Icon, TotalAmount := 100, Count := 1,
            Percentage := .num (100 / 140 * 100) },
          { CategoryID := 2, CategoryName := "Food", CategoryIcon := "🍔",
            TotalAmount := 40, Count := 1, Percentage := .num (40 / 140 * 100) }]) := by
  have hname : monthName 1 ++ " " ++ "2024" = "January 2024" := by decide
  simp only [GetMonthlyReport, januaryWindow.1, januaryWindow.2.1, januaryWindow.2.2.1,
    storeJanuary_income, storeJanuary_expense, storeJanuary_window, hname,
    storeJanuary_breakdown incomeCategory hid, List.map_cons, List.map_nil, coalesceSum_hundred,
    coalesceSum_forty, scanBreakdownRow_hundred, scanBreakdownRow_forty, monthlySummaries,
    percentage_hundred, percentage_forty]
  norm_num

/-- C5 for the income booked in "Salary". -/
theorem monthlyReport_example_witness :
    salaryCategory.ID ≠ 2 ∧
    GetMonthlyReport (storeJanuary salaryCategory) 7 "2024" "01" =
      .json StatusOK
        ({ Month := "January 2024", TotalIncome := 100, TotalExpense := 40, Balance := 60,
           TransactionCount := 2 },
         [{ CategoryID := 1, CategoryName := "Salary", CategoryIcon := "💰",
            TotalAmount := 100, Count := 1, Percentage := .num (100 / 140 * 100) },
          { CategoryID := 2, CategoryName := "Food", CategoryIcon := "🍔",
            TotalAmount := 40, Count := 1, Percentage := .num (40 / 140 * 100) }]) :=
  ⟨by decide, monthlyReport_example salaryCategory (by decide)⟩


/-- C5, as stated, fails: user 7 has exactly the two transactions of the example,
the totals are as stated, but the breakdown has two entries, "Salary" with total
100 before "Food" with total 40, and so is not the single entry "Food". -/
theorem monthlyReport_example_counterexample :
    ((storeJanuary salaryCategory).transactions.filter (fun t => t.UserID == 7)).map
      (fun t => (t.Amount, t.Type_, t.Date, t.CategoryID)) =
      [(100, "income", timeDate 2024 1 5, 1), (40, "expense", timeDate 2024 1 10, 2)] ∧
    ∃ (report : MonthlyReport) (breakdown : List CategorySummary),
      GetMonthlyReport (storeJanuary salaryCategory) 7 "2024" "01" =
        .json StatusOK (report, breakdown) ∧
      report.TotalIncome = 100 ∧ report.TotalExpense = 40 ∧ report.Balance = 60 ∧
      report.TransactionCount = 2 ∧
      breakdown.map (fun e => (e.CategoryName, e.TotalAmount)) =
        [("Salary", 100), ("Food", 40)] ∧
      breakdown.length ≠ 1 := by
  refine ⟨by decide, _, _, rfl, ?_, ?_, ?_, ?_, ?_, ?_⟩ <;>
    (simp only [januaryWindow.1, januaryWindow.2.1, januaryWindow.2.2.1,
      storeJanuary_income, storeJanuary_expense, storeJanuary_window,
      storeJanuary_breakdown salaryCategory (by decide), List.map_cons, List.map_nil,
      coalesceSum_hundred, coalesceSum_forty, scanBreakdownRow_hundred,
      scanBreakdownRow_forty]
     try simp [monthlySummaries, salaryCategory]
     try norm_num)


/-! ## The reports within the range of `float64` -/

theorem sum_filter_le (l : List Transaction) (p : Transaction → Bool)
    (hpos : ∀ t ∈ l, 0 < t.Amount) :
    0 ≤ ((l.filter p).map Transaction.Amount).sum ∧
      ((l.filter p).map Transaction.Amount).sum ≤ (l.map Transaction.Amount).sum := by
  constructor
  · exact amounts_sum_nonneg _ (fun t ht => hpos t (List.mem_of_mem_filter ht))
  · induction l with
    | nil => simp
    | cons t rest ih =>
      have hrest := ih (fun t1 h1 => hpos t1 (List.mem_cons_of_mem _ h1))
      have ht := hpos t (List.mem_cons_self _ _)
      by_cases hp : p t = true
      · simp only [List.filter_cons, hp, if_true, List.map_cons, List.sum_cons]
        linarith
      · simp only [List.filter_cons, hp, List.map_cons, List.sum_cons]
        simp only [Bool.false_eq_true, if_false]
        linarith

theorem fitsFloat64_of_between {v t : ℚ} (h0 : 0 ≤ v) (hle : v ≤ t)
    (ht : fitsFloat64 t = true) : fitsFloat64 v = true := by
  have hb := float64Bound_large
  have h9 : (0 : ℚ) < 10 ^ 9 := by norm_num
  rw [fitsFloat64_iff] at ht ⊢
  constructor
  · linarith
  · linarith [ht.2]

/-- The percentage of a part `a` of a positive total `t` in range. -/
theorem percentage_of_part {a t : ℚ} (h0 : 0 ≤ a) (hle : a ≤ t) (hpos : 0 < t)
    (hft : fitsFloat64 t = true) :
    ((F64.num a).div (F64.ofRat t)).times100 = .num (a / t * 100) := by
  have hq0 : 0 ≤ a / t := div_nonneg h0 (le_of_lt hpos)
  have hq1 : a / t ≤ 1 := (div_le_one hpos).mpr hle
  have h9 : (100 : ℚ) ≤ 10 ^ 9 := by norm_num
  exact percentage_of_fits (ne_of_gt hpos) hft
    (fitsFloat64_small (by linarith) (by linarith))
    (fitsFloat64_small (by linarith) (by linarith))

/-- Every row of the grouped query over transactions with positive amounts has a
total between 0 and the sum of all the amounts. -/
theorem breakdownQuery_fits (s : Store) (txs : List Transaction)
    (hpk : (s.categories.map Category.ID).Nodup) (hpos : ∀ t ∈ txs, 0 < t.Amount)
    (hfit : fitsFloat64 (txs.map Transaction.Amount).sum = true) :
    ∀ g ∈ breakdownQuery s txs, 0 ≤ g.TotalAmount ∧
      g.TotalAmount ≤ (txs.map Transaction.Amount).sum ∧
      fitsFloat64 g.TotalAmount = true := by
  intro g hg
  obtain ⟨c, _, _, _, _, h4, _, _⟩ := mem_groupBreakdown hpk (mem_breakdownQuery.mp hg)
  have h := sum_filter_le txs (fun t => t.CategoryID == c.ID) hpos
  rw [← h4] at h
  exact ⟨h.1, h.2, fitsFloat64_of_between h.1 h.2 hfit⟩

theorem map_scanBreakdownRow_of_fits {rows : List CategoryBreakdown}
    (h : ∀ g ∈ rows, fitsFloat64 g.TotalAmount = true) :
    rows.map scanBreakdownRow = rows := by
  induction rows with
  | nil => rfl
  | cons g rest ih =>
    rw [List.map_cons, scanBreakdownRow_of_fits (h g (List.mem_cons_self _ _)),
      ih (fun g1 h1 => h g1 (List.mem_cons_of_mem _ h1))]

/-- The two scanned sums of a list of transactions with positive amounts, types
"income" or "expense" and a sum in range are the exact sums, and add up to the sum
of all the amounts. -/
theorem coalesceSum_types (l : List Transaction) (hpos : ∀ t ∈ l, 0 < t.Amount)
    (hfit : fitsFloat64 (l.map Transaction.Amount).sum = true) (type : String) :
    coalesceSum ((l.filter (fun t => t.Type_ == type)).map Transaction.Amount) =
      ((l.filter (fun t => t.Type_ == type)).map Transaction.Amount).sum := by
  have h := sum_filter_le l (fun t => t.Type_ == type) hpos
  exact coalesceSum_of_fits (fitsFloat64_of_between h.1 h.2 hfit)

/-- The totals of the monthly report where the two sums of the window are in the
range of `float64`: `totalIncome` and `totalExpense` are the sums of the amounts of
the user's non-deleted income and expense transactions in the window,
`balance = totalIncome - totalExpense`, `transactionCount` is the number of the
user's non-deleted transactions in the window, and with no transaction in the
window all four are 0 and the breakdown is empty. -/
theorem monthlyReport_totals_in_range (s : Store) (userID : Nat) (yearStr monthStr : String)
    (hI : fitsFloat64 (specWindowTotal s userID "income"
      (monthStart (parsedMonth yearStr monthStr).2.1 (parsedMonth yearStr monthStr).2.2)
      (monthEnd (parsedMonth yearStr monthStr).2.1 (parsedMonth yearStr monthStr).2.2)) = true)
    (hE : fitsFloat64 (specWindowTotal s userID "expense"
      (monthStart (parsedMonth yearStr monthStr).2.1 (parsedMonth yearStr monthStr).2.2)
      (monthEnd (parsedMonth yearStr monthStr).2.1 (parsedMonth yearStr monthStr).2.2)) = true) :
    ∃ (report : MonthlyReport) (breakdown : List CategorySummary),
      GetMonthlyReport s userID yearStr monthStr = .json StatusOK (report, breakdown) ∧
      report.TotalIncome = specWindowTotal s userID "income"
        (monthStart (parsedMonth yearStr monthStr).2.1 (parsedMonth yearStr monthStr).2.2)
        (monthEnd (parsedMonth yearStr monthStr).2.1 (parsedMonth yearStr monthStr).2.2) ∧
      report.TotalExpense = specWindowTotal s userID "expense"
        (monthStart (parsedMonth yearStr monthStr).2.1 (parsedMonth yearStr monthStr).2.2)
        (monthEnd (parsedMonth yearStr monthStr).2.1 (parsedMonth yearStr monthStr).2.2) ∧
      report.Balance = report.TotalIncome - report.TotalExpense ∧
      report.TransactionCount = (specWindowTransactions s userID
        (monthStart (parsedMonth yearStr monthStr).2.1 (parsedMonth yearStr monthStr).2.2)
        (monthEnd (parsedMonth yearStr monthStr).2.1 (parsedMonth yearStr monthStr).2.2)).length ∧
      (specWindowTransactions s userID
        (monthStart (parsedMonth yearStr monthStr).2.1 (parsedMonth yearStr monthStr).2.2)
        (monthEnd (parsedMonth yearStr monthStr).2.1 (parsedMonth yearStr monthStr).2.2) = [] →
        report.TotalIncome = 0 ∧ report.TotalExpense = 0 ∧ report.Balance = 0 ∧
        report.TransactionCount = 0 ∧ breakdown = []) := by
  have hscan : ∀ type : String, fitsFloat64 (specWindowTotal s userID type
      (monthStart (parsedMonth yearStr monthStr).2.1 (parsedMonth yearStr monthStr).2.2)
      (monthEnd (parsedMonth yearStr monthStr).2.1 (parsedMonth yearStr monthStr).2.2)) = true →
      coalesceSum ((windowTransactionsOfType s userID type
        (monthStart (parsedMonth yearStr monthStr).2.1 (parsedMonth yearStr monthStr).2.2)
        (monthEnd (parsedMonth yearStr monthStr).2.1
          (parsedMonth yearStr monthStr).2.2)).map Transaction.Amount) =
      specWindowTotal s userID type
        (monthStart (parsedMonth yearStr monthStr).2.1 (parsedMonth yearStr monthStr).2.2)
        (monthEnd (parsedMonth yearStr monthStr).2.1 (parsedMonth yearStr monthStr).2.2) := by
    intro type h
    rw [windowTransactionsOfType_eq_spec]
    exact coalesceSum_of_fits h
  refine ⟨_, _, rfl, hscan "income" hI, hscan "expense" hE, rfl, ?_, ?_⟩
  · simp only [windowTransactions_eq_spec]
  · intro hempty
    simp only [windowTransactionsOfType_eq_spec, windowTransactions_eq_spec, hempty,
      breakdownQuery_nil, monthlySummaries, List.filter_nil, List.map_nil, coalesceSum_nil]
    simp

theorem monthlySummaries_totals (totalIncome totalExpense : ℚ)
    (rows : List CategoryBreakdown) :
    ((monthlySummaries totalIncome totalExpense rows).map CategorySummary.TotalAmount) =
      rows.map CategoryBreakdown.TotalAmount ∧
    ((monthlySummaries totalIncome totalExpense rows).map CategorySummary.Count) =
      rows.map CategoryBreakdown.Count := by
  simp [monthlySummaries, List.map_map, Function.comp_def]

theorem percentageSum_monthlySummaries (totalIncome totalExpense : ℚ)
    (rows : List CategoryBreakdown) (hpos : 0 < totalIncome + totalExpense)
    (hfit : fitsFloat64 (totalIncome + totalExpense) = true)
    (hrows : ∀ cb ∈ rows, 0 ≤ cb.TotalAmount ∧ cb.TotalAmount ≤ totalIncome + totalExpense)
    (hsum : (rows.map CategoryBreakdown.TotalAmount).sum = totalIncome + totalExpense) :
    percentageSum (monthlySummaries totalIncome totalExpense rows) = .num 100 := by
  have hne : totalIncome + totalExpense ≠ 0 := ne_of_gt hpos
  have hnum : ∀ e ∈ monthlySummaries totalIncome totalExpense rows,
      e.Percentage = .num (e.TotalAmount * (100 / (totalIncome + totalExpense))) := by
    intro e he
    simp only [monthlySummaries, List.mem_map] at he
    obtain ⟨cb, hcb, rfl⟩ := he
    show ((F64.num cb.TotalAmount).div (F64.ofRat (totalIncome + totalExpense))).times100 = _
    rw [percentage_of_part (hrows cb hcb).1 (hrows cb hcb).2 hpos hfit]
    congr 1
    field_simp
  unfold percentageSum
  rw [foldl_add_num _ _ hnum 0, zero_add]
  have hmap : (monthlySummaries totalIncome totalExpense rows).map
      (fun e => e.TotalAmount * (100 / (totalIncome + totalExpense))) =
      (rows.map CategoryBreakdown.TotalAmount).map
        (fun x => x * (100 / (totalIncome + totalExpense))) := by
    simp [monthlySummaries, List.map_map, Function.comp_def]
  rw [hmap, List.sum_map_mul_right, List.map_id', hsum]
  congr 1
  field_simp

/-- The breakdown of the monthly query over any window whose amounts add up to a
sum in the range of `float64`. -/
theorem monthly_breakdown_in_range (s : Store) (userID : Nat) (a b : Time)
    (hpk : (s.categories.map Category.ID).Nodup)
    (htype : ∀ t ∈ s.transactions, t.DeletedAt = none →
      t.Type_ = "income" ∨ t.Type_ = "expense")
    (hcat : ∀ t ∈ s.transactions, t.DeletedAt = none →
      ∃ c ∈ s.categories, c.ID = t.CategoryID)
    (hpos : ∀ t ∈ s.transactions, t.DeletedAt = none → 0 < t.Amount)
    (hfit : fitsFloat64
      ((windowTransactions s userID a b).map Transaction.Amount).sum = true) :
    ((monthlySummaries
        (coalesceSum ((windowTransactionsOfType s userID "income" a b).map
          Transaction.Amount))
        (coalesceSum ((windowTransactionsOfType s userID "expense" a b).map
          Transaction.Amount))
        ((breakdownQuery s (windowTransactions s userID a b)).map scanBreakdownRow)).map
      CategorySummary.Count).sum = (windowTransactions s userID a b).length ∧
    ((monthlySummaries
        (coalesceSum ((windowTransactionsOfType s userID "income" a b).map
          Transaction.Amount))
        (coalesceSum ((windowTransactionsOfType s userID "expense" a b).map
          Transaction.Amount))
        ((breakdownQuery s (windowTransactions s userID a b)).map scanBreakdownRow)).map
      CategorySummary.TotalAmount).sum =
      coalesceSum ((windowTransactionsOfType s userID "income" a b).map
          Transaction.Amount) +
        coalesceSum ((windowTransactionsOfType s userID "expense" a b).map
          Transaction.Amount) ∧
    (0 < (windowTransactions s userID a b).length →
      percentageSum (monthlySummaries
        (coalesceSum ((windowTransactionsOfType s userID "income" a b).map
          Transaction.Amount))
        (coalesceSum ((windowTransactionsOfType s userID "expense" a b).map
          Transaction.Amount))
        ((breakdownQuery s (windowTransactions s userID a b)).map scanBreakdownRow)) =
      .num 100) := by
  have hlive : ∀ t ∈ windowTransactions s userID a b,
      t ∈ s.transactions ∧ t.DeletedAt = none := by
    intro t ht
    have hm := List.mem_filter.mp ht
    have hc := hm.2
    simp only [Bool.and_eq_true, Option.isNone_iff_eq_none] at hc
    exact ⟨hm.1, hc.2⟩
  have hposW : ∀ t ∈ windowTransactions s userID a b, 0 < t.Amount :=
    fun t ht => hpos t (hlive t ht).1 (hlive t ht).2
  have hrowsfit := breakdownQuery_fits s _ hpk hposW hfit
  have hscan : (breakdownQuery s (windowTransactions s userID a b)).map scanBreakdownRow =
      breakdownQuery s (windowTransactions s userID a b) :=
    map_scanBreakdownRow_of_fits (fun g hg => (hrowsfit g hg).2.2)
  have hsums := breakdownQuery_sums s (windowTransactions s userID a b) hpk
    (fun t ht => hcat t (hlive t ht).1 (hlive t ht).2)
  have hT : coalesceSum ((windowTransactionsOfType s userID "income" a b).map
        Transaction.Amount) +
      coalesceSum ((windowTransactionsOfType s userID "expense" a b).map
        Transaction.Amount) =
      ((windowTransactions s userID a b).map Transaction.Amount).sum := by
    rw [windowTransactionsOfType_eq_filter, windowTransactionsOfType_eq_filter,
      coalesceSum_types _ hposW hfit, coalesceSum_types _ hposW hfit]
    exact sum_income_add_expense _ (fun t ht => htype t (hlive t ht).1 (hlive t ht).2)
  rw [hscan]
  refine ⟨?_, ?_, ?_⟩
  · rw [(monthlySummaries_totals _ _ _).2]
    exact hsums.1
  · rw [(monthlySummaries_totals _ _ _).1, hsums.2, hT]
  · intro hcount
    have hne : windowTransactions s userID a b ≠ [] := by
      intro hnil
      rw [hnil] at hcount
      exact absurd hcount (by simp)
    have hTpos := amounts_sum_pos _ hne hposW
    apply percentageSum_monthlySummaries
    · rw [hT]
      exact hTpos
    · rw [hT]
      exact hfit
    · intro cb hcb
      rw [hT]
      exact ⟨(hrowsfit cb hcb).1, (hrowsfit cb hcb).2.1⟩
    · rw [hsums.2, hT]

/-- The breakdown of the monthly report where the sum of the window is in the range
of `float64`: in a store with unique category ids in which each non-deleted
transaction has a positive amount, type "income" or "expense" and an existing
category row, the counts of the breakdown entries add up to `transactionCount`,
their totals add up to `totalIncome + totalExpense`, and with at least one
transaction in the window the percentages add up to exactly 100. -/
theorem monthlyReport_breakdown_in_range (s : Store) (userID : Nat)
    (yearStr monthStr : String) (hpk : (s.categories.map Category.ID).Nodup)
    (htype : ∀ t ∈ s.transactions, t.DeletedAt = none →
      t.Type_ = "income" ∨ t.Type_ = "expense")
    (hcat : ∀ t ∈ s.transactions, t.DeletedAt = none →
      ∃ c ∈ s.categories, c.ID = t.CategoryID)
    (hpos : ∀ t ∈ s.transactions, t.DeletedAt = none → 0 < t.Amount)
    (hfit : fitsFloat64 ((specWindowTransactions s userID
      (monthStart (parsedMonth yearStr monthStr).2.1 (parsedMonth yearStr monthStr).2.2)
      (monthEnd (parsedMonth yearStr monthStr).2.1
        (parsedMonth yearStr monthStr).2.2)).map Transaction.Amount).sum = true) :
    ∃ (report : MonthlyReport) (breakdown : List CategorySummary),
      GetMonthlyReport s userID yearStr monthStr = .json StatusOK (report, breakdown) ∧
      (breakdown.map CategorySummary.Count).sum = report.TransactionCount ∧
      (breakdown.map CategorySummary.TotalAmount).sum =
        report.TotalIncome + report.TotalExpense ∧
      (0 < report.TransactionCount → percentageSum breakdown = .num 100) := by
  rw [← windowTransactions_eq_spec] at hfit
  exact ⟨_, _, rfl, monthly_breakdown_in_range s userID _ _ hpk htype hcat hpos hfit⟩

/-! ## The dashboard within the range of `float64` -/

theorem userTransactionsOfType_eq_filter (s : Store) (userID : Nat) (type : String) :
    userTransactionsOfType s userID type =
      (userTransactions s userID).filter (fun t => t.Type_ == type) := by
  unfold userTransactionsOfType userTransactions
  rw [List.filter_filter]
  apply List.filter_congr
  intro t _
  rw [Bool.eq_iff_iff]
  simp only [Bool.and_eq_true, beq_iff_eq]
  tauto

theorem userTransactionsOfType_eq_spec (s : Store) (userID : Nat) (type : String) :
    ((userTransactionsOfType s userID type).map Transaction.Amount).sum =
      specUserTotal s userID type := by
  unfold userTransactionsOfType specUserTotal
  congr 2
  apply List.filter_congr
  intro t _
  rw [Bool.eq_iff_iff]
  simp only [Bool.and_eq_true, beq_iff_eq, decide_eq_true_eq, Option.isNone_iff_eq_none]
  tauto

theorem mem_dashboardSummaries {totalAmount : F64} {rows : List CategoryBreakdown}
    {e : CategorySummary} (he : e ∈ dashboardSummaries totalAmount rows) :
    ∃ cb ∈ rows, e.CategoryID = cb.CategoryID ∧ e.CategoryName = cb.CategoryName ∧
      e.CategoryIcon = cb.CategoryIcon ∧ e.TotalAmount = cb.TotalAmount ∧
      e.Count = cb.Count ∧
      e.Percentage = (if totalAmount.pos then
        ((F64.num cb.TotalAmount).div totalAmount).times100 else .num 0) := by
  simp only [dashboardSummaries, List.mem_map] at he
  obtain ⟨cb, hcb, rfl⟩ := he
  exact ⟨cb, hcb, rfl, rfl, rfl, rfl, rfl, rfl⟩

/-- The dashboard where the sum of the user's amounts is in the range of `float64`:
in a store with unique category ids whose non-deleted transactions have a positive
amount and the type "income" or "expense", `totalIncome` and `totalExpense` are the
all-time sums of the user's non-deleted income and expense transactions; the
breakdown has at most 10 entries, in non-increasing order of total, for pairwise
different categories; every entry carries the all-time sum and number of the user's
non-deleted transactions booked in its category; every category with such
transactions that has no entry has a sum not above any of the 10 entries; the
percentage of an entry is `total / (totalIncome + totalExpense) * 100` when
`totalIncome + totalExpense > 0` and 0 when that sum is zero. -/
theorem dashboard_breakdown_in_range (s : Store) (userID : Nat)
    (hpk : (s.categories.map Category.ID).Nodup)
    (hvalid : ∀ t ∈ s.transactions, t.DeletedAt = none →
      0 < t.Amount ∧ (t.Type_ = "income" ∨ t.Type_ = "expense"))
    (hfit : fitsFloat64
      (specUserTotal s userID "income" + specUserTotal s userID "expense") = true) :
    ∃ stats : DashboardStats, GetDashboardStats s userID = .json StatusOK stats ∧
      stats.TotalIncome = specUserTotal s userID "income" ∧
      stats.TotalExpense = specUserTotal s userID "expense" ∧
      stats.CategoryBreakdown.length ≤ 10 ∧
      stats.CategoryBreakdown.Pairwise (fun a b => b.TotalAmount ≤ a.TotalAmount) ∧
      (stats.CategoryBreakdown.map CategorySummary.CategoryID).Nodup ∧
      (∀ e ∈ stats.CategoryBreakdown,
        (∃ c ∈ s.categories, c.ID = e.CategoryID ∧ c.Name = e.CategoryName ∧
          c.Icon = e.CategoryIcon) ∧
        e.TotalAmount = specCategoryTotal s userID e.CategoryID ∧
        e.Count = (specCategoryTransactions s userID e.CategoryID).length ∧
        0 < e.Count ∧
        (0 < stats.TotalIncome + stats.TotalExpense →
          e.Percentage =
            .num (e.TotalAmount / (stats.TotalIncome + stats.TotalExpense) * 100)) ∧
        (stats.TotalIncome + stats.TotalExpense = 0 → e.Percentage = .num 0)) ∧
      (∀ c ∈ s.categories, specCategoryTransactions s userID c.ID ≠ [] →
        (∃ e ∈ stats.CategoryBreakdown, e.CategoryID = c.ID) ∨
        (stats.CategoryBreakdown.length = 10 ∧
          ∀ e ∈ stats.CategoryBreakdown,
            specCategoryTotal s userID c.ID ≤ e.TotalAmount)) := by
  have hlive : ∀ t ∈ userTransactions s userID,
      t ∈ s.transactions ∧ t.DeletedAt = none := by
    intro t ht
    have hm := List.mem_filter.mp ht
    have hc := hm.2
    simp only [Bool.and_eq_true, Option.isNone_iff_eq_none] at hc
    exact ⟨hm.1, hc.2⟩
  have hposU : ∀ t ∈ userTransactions s userID, 0 < t.Amount :=
    fun t ht => (hvalid t (hlive t ht).1 (hlive t ht).2).1
  have hsumU : specUserTotal s userID "income" + specUserTotal s userID "expense" =
      ((userTransactions s userID).map Transaction.Amount).sum := by
    rw [← userTransactionsOfType_eq_spec, ← userTransactionsOfType_eq_spec,
      userTransactionsOfType_eq_filter, userTransactionsOfType_eq_filter]
    exact sum_income_add_expense _
      (fun t ht => (hvalid t (hlive t ht).1 (hlive t ht).2).2)
  have hfitU : fitsFloat64 ((userTransactions s userID).map Transaction.Amount).sum = true := by
    rw [← hsumU]
    exact hfit
  have hrowsfit := breakdownQuery_fits s _ hpk hposU hfitU
  have hscan : ((breakdownQuery s (userTransactions s userID)).take 10).map scanBreakdownRow =
      (breakdownQuery s (userTransactions s userID)).take 10 :=
    map_scanBreakdownRow_of_fits (fun g hg => (hrowsfit g (List.mem_of_mem_take hg)).2.2)
  have hscanT : ∀ type : String,
      coalesceSum ((userTransactionsOfType s userID type).map Transaction.Amount) =
        specUserTotal s userID type := by
    intro type
    rw [← userTransactionsOfType_eq_spec, userTransactionsOfType_eq_filter]
    exact coalesceSum_types _ hposU hfitU type
  have hstats : GetDashboardStats s userID = .json StatusOK
      { TotalIncome := specUserTotal s userID "income",
        TotalExpense := specUserTotal s userID "expense",
        Balance := specUserTotal s userID "income" - specUserTotal s userID "expense",
        TransactionCount := (userTransactions s userID).length,
        CategoryBreakdown := dashboardSummaries
          (.num (specUserTotal s userID "income" + specUserTotal s userID "expense"))
          ((breakdownQuery s (userTransactions s userID)).take 10),
        RecentTransactions :=
          (((userTransactions s userID).insertionSort recentFirst).take 5).map
            (fun t => t.ToResponse (preloadCategory s t)) } := by
    simp only [GetDashboardStats]
    rw [hscan, hscanT, hscanT, ofRat_of_fits hfit]
  refine ⟨_, hstats, rfl, rfl, ?_, ?_, ?_, ?_, ?_⟩
  · simp only [dashboardSummaries, List.length_map, List.length_take]
    exact Nat.min_le_left _ _
  · simp only [dashboardSummaries, List.pairwise_map]
    exact (breakdownQuery_sorted s _).sublist (List.take_sublist _ _)
  · have hids : (dashboardSummaries
        (.num (specUserTotal s userID "income" + specUserTotal s userID "expense"))
        ((breakdownQuery s (userTransactions s userID)).take 10)).map
          CategorySummary.CategoryID =
        ((breakdownQuery s (userTransactions s userID)).take 10).map
          CategoryBreakdown.CategoryID := by
      simp [dashboardSummaries, List.map_map, Function.comp_def]
    show (List.map CategorySummary.CategoryID (dashboardSummaries _ _)).Nodup
    rw [hids]
    have hperm : (breakdownQuery s (userTransactions s userID)).Perm
        (groupBreakdown (joinCategories (userTransactions s userID) s.categories)) :=
      List.perm_insertionSort totalDesc _
    have hnd := ((hperm.map CategoryBreakdown.CategoryID).nodup_iff).mpr
      (groupBreakdown_ids_nodup hpk)
    exact hnd.sublist ((List.take_sublist _ _).map _)
  · intro e he
    obtain ⟨cb, hcb, h1, h2, h3, h4, h5, h6⟩ := mem_dashboardSummaries he
    have hcbfit := hrowsfit cb (List.mem_of_mem_take hcb)
    have hg := mem_breakdownQuery.mp (List.mem_of_mem_take hcb)
    obtain ⟨c, hc, g1, g2, g3, g4, g5, g6⟩ := mem_groupBreakdown hpk hg
    rw [userTransactions_filter_category] at g4 g5
    refine ⟨⟨c, hc, ?_, ?_, ?_⟩, ?_, ?_, ?_, ?_, ?_⟩
    · rw [h1, g1]
    · rw [h2, g2]
    · rw [h3, g3]
    · rw [h4, g4, h1, g1]
      rfl
    · rw [h5, g5, h1, g1]
    · rw [h5]
      exact g6
    · intro hpos
      have hpos1 : 0 < specUserTotal s userID "income" + specUserTotal s userID "expense" :=
        hpos
      have hpart := percentage_of_part hcbfit.1 (hsumU ▸ hcbfit.2.1) hpos1 hfit
      rw [ofRat_of_fits hfit] at hpart
      rw [h6, h4]
      simp only [F64.pos, hpos1, decide_True, if_true]
      exact hpart
    · intro hzero
      have hzero1 : specUserTotal s userID "income" + specUserTotal s userID "expense" = 0 :=
        hzero
      rw [h6]
      simp [F64.pos, hzero1]
  · intro c hc hne
    obtain ⟨t, ht⟩ := List.exists_mem_of_ne_nil _ hne
    rw [← userTransactions_filter_category] at ht
    obtain ⟨htx, htc⟩ := List.mem_filter.mp ht
    have hid : c.ID = t.CategoryID := by
      have := htc
      simp only [beq_iff_eq] at this
      exact this.symm
    obtain ⟨g, hg, hgid⟩ := exists_group_of_mem htx hc hid
    have hgB : g ∈ breakdownQuery s (userTransactions s userID) := mem_breakdownQuery.mpr hg
    obtain ⟨c1, hc1, g1, _, _, g4, _, _⟩ := mem_groupBreakdown hpk hg
    rw [userTransactions_filter_category] at g4
    have hgtotal : g.TotalAmount = specCategoryTotal s userID c.ID := by
      rw [g4, ← g1, hgid]
      rfl
    rw [← List.take_append_drop 10 (breakdownQuery s (userTransactions s userID)),
      List.mem_append] at hgB
    rcases hgB with hin | hout
    · left
      refine ⟨_, List.mem_map_of_mem _ hin, hgid⟩
    · right
      have hlen : 10 < (breakdownQuery s (userTransactions s userID)).length := by
        by_contra hle
        rw [List.drop_eq_nil_of_le (by omega)] at hout
        simp at hout
      refine ⟨?_, ?_⟩
      · simp only [dashboardSummaries, List.length_map, List.length_take]
        omega
      · intro e he
        obtain ⟨cb, hcb, _, _, _, h4, _, _⟩ := mem_dashboardSummaries he
        have hsorted := breakdownQuery_sorted s (userTransactions s userID)
        have hrel := hsorted.rel_of_mem_take_of_mem_drop hcb hout
        rw [h4, ← hgtotal]
        exact hrel

/-! ## The in-range reports on the store of the example -/

theorem storeJanuary_specTotals :
    specWindowTotal (storeJanuary salaryCategory) 7 "income"
      (monthStart (parsedMonth "2024" "01").2.1 (parsedMonth "2024" "01").2.2)
      (monthEnd (parsedMonth "2024" "01").2.1 (parsedMonth "2024" "01").2.2) = 100 ∧
    specWindowTotal (storeJanuary salaryCategory) 7 "expense"
      (monthStart (parsedMonth "2024" "01").2.1 (parsedMonth "2024" "01").2.2)
      (monthEnd (parsedMonth "2024" "01").2.1 (parsedMonth "2024" "01").2.2) = 40 ∧
    ((specWindowTransactions (storeJanuary salaryCategory) 7
      (monthStart (parsedMonth "2024" "01").2.1 (parsedMonth "2024" "01").2.2)
      (monthEnd (parsedMonth "2024" "01").2.1 (parsedMonth "2024" "01").2.2)).map
        Transaction.Amount).sum = 140 ∧
    specUserTotal (storeJanuary salaryCategory) 7 "income" = 100 ∧
    specUserTotal (storeJanuary salaryCategory) 7 "expense" = 40 := by
  refine ⟨?_, ?_, ?_, ?_, ?_⟩
  · unfold specWindowTotal
    rw [← windowTransactionsOfType_eq_spec, januaryWindow.1, januaryWindow.2.1,
      januaryWindow.2.2.1, storeJanuary_income]
    simp
  · unfold specWindowTotal
    rw [← windowTransactionsOfType_eq_spec, januaryWindow.1, januaryWindow.2.1,
      januaryWindow.2.2.1, storeJanuary_expense]
    simp
  · rw [← windowTransactions_eq_spec, januaryWindow.1, januaryWindow.2.1,
      januaryWindow.2.2.1, storeJanuary_window]
    norm_num
  · simp [specUserTotal, storeJanuary, List.filter]
  · simp [specUserTotal, storeJanuary, List.filter]

theorem storeJanuary_valid :
    ((storeJanuary salaryCategory).categories.map Category.ID).Nodup ∧
    (∀ t ∈ (storeJanuary salaryCategory).transactions, t.DeletedAt = none →
      t.Type_ = "income" ∨ t.Type_ = "expense") ∧
    (∀ t ∈ (storeJanuary salaryCategory).transactions, t.DeletedAt = none →
      ∃ c ∈ (storeJanuary salaryCategory).categories, c.ID = t.CategoryID) ∧
    (∀ t ∈ (storeJanuary salaryCategory).transactions, t.DeletedAt = none →
      0 < t.Amount) := by
  refine ⟨by decide, ?_, ?_, ?_⟩
  · simp [storeJanuary]
  · simp [storeJanuary, salaryCategory, foodCategory]
  · simp [storeJanuary]

/-- The totals of the example through `monthlyReport_totals_in_range`. -/
theorem monthlyReport_totals_in_range_witness :
    ∃ (report : MonthlyReport) (breakdown : List CategorySummary),
      GetMonthlyReport (storeJanuary salaryCategory) 7 "2024" "01" =
        .json StatusOK (report, breakdown) ∧
      report.TotalIncome = 100 ∧ report.TotalExpense = 40 ∧
      report.Balance = report.TotalIncome - report.TotalExpense := by
  have hI := storeJanuary_specTotals.1
  have hE := storeJanuary_specTotals.2.1
  obtain ⟨report, breakdown, h, h1, h2, h3, _⟩ :=
    monthlyReport_totals_in_range (storeJanuary salaryCategory) 7 "2024" "01"
      (by rw [hI]; exact fitsFloat64_small (by norm_num) (by norm_num))
      (by rw [hE]; exact fitsFloat64_small (by norm_num) (by norm_num))
  exact ⟨report, breakdown, h, h1.trans hI, h2.trans hE, h3⟩

/-- The breakdown of the example through `monthlyReport_breakdown_in_range`. -/
theorem monthlyReport_breakdown_in_range_witness :
    ∃ (report : MonthlyReport) (breakdown : List CategorySummary),
      GetMonthlyReport (storeJanuary salaryCategory) 7 "2024" "01" =
        .json StatusOK (report, breakdown) ∧
      (breakdown.map CategorySummary.Count).sum = report.TransactionCount ∧
      (breakdown.map CategorySummary.TotalAmount).sum =
        report.TotalIncome + report.TotalExpense ∧
      (0 < report.TransactionCount → percentageSum breakdown = .num 100) :=
  monthlyReport_breakdown_in_range (storeJanuary salaryCategory) 7 "2024" "01"
    storeJanuary_valid.1 storeJanuary_valid.2.1 storeJanuary_valid.2.2.1
    storeJanuary_valid.2.2.2
    (by rw [storeJanuary_specTotals.2.2.1]
        exact fitsFloat64_small (by norm_num) (by norm_num))

/-- The dashboard of the example through `dashboard_breakdown_in_range`. -/
theorem dashboard_breakdown_in_range_witness :
    ∃ stats : DashboardStats,
      GetDashboardStats (storeJanuary salaryCategory) 7 = .json StatusOK stats ∧
      stats.TotalIncome = 100 ∧ stats.TotalExpense = 40 ∧
      stats.CategoryBreakdown.length ≤ 10 ∧
      stats.CategoryBreakdown.Pairwise (fun a b => b.TotalAmount ≤ a.TotalAmount) ∧
      ∀ e ∈ stats.CategoryBreakdown,
        e.TotalAmount = specCategoryTotal (storeJanuary salaryCategory) 7 e.CategoryID ∧
        e.Percentage = .num (e.TotalAmount / 140 * 100) := by
  have hI := storeJanuary_specTotals.2.2.2.1
  have hE := storeJanuary_specTotals.2.2.2.2
  obtain ⟨stats, h, h1, h2, h3, h4, _, h6, _⟩ :=
    dashboard_breakdown_in_range (storeJanuary salaryCategory) 7 storeJanuary_valid.1
      (fun t ht hd => ⟨storeJanuary_valid.2.2.2 t ht hd, storeJanuary_valid.2.1 t ht hd⟩)
      (by rw [hI, hE]; exact fitsFloat64_small (by norm_num) (by norm_num))
  refine ⟨stats, h, h1.trans hI, h2.trans hE, h3, h4, ?_⟩
  intro e he
  obtain ⟨_, h7, _, _, h8, _⟩ := h6 e he
  rw [h1, h2, hI, hE] at h8
  have h140 : (100 : ℚ) + 40 = 140 := by norm_num
  rw [h140] at h8
  exact ⟨h7, h8 (by norm_num)⟩

/-! ## Sums beyond the range of `float64` -/

theorem amount1e308_valid : 0 < amount1e308 ∧ fitsFloat64 amount1e308 = true := by
  refine ⟨by norm_num [amount1e308], ?_⟩
  rw [fitsFloat64_iff]
  constructor <;> norm_num [amount1e308, float64Bound]

theorem amount1e308_twice : fitsFloat64 (amount1e308 + amount1e308) = false := by
  rw [Bool.eq_false_iff, Ne, fitsFloat64_iff]
  norm_num [amount1e308, float64Bound]

theorem storeOverflow_reachable :
    runCalls storeDefaults overflowCalls = storeOverflow ∧
    (CreateTransaction storeDefaults 100 7
      ⟨amount1e308, "bonus", timeDate 2024 1 5, "income", 1⟩).1.status = StatusCreated ∧
    (CreateTransaction
      (CreateTransaction storeDefaults 100 7
        ⟨amount1e308, "bonus", timeDate 2024 1 5, "income", 1⟩).2 101 7
      ⟨amount1e308, "bonus", timeDate 2024 1 10, "income", 1⟩).1.status = StatusCreated := by
  decide

theorem storeOverflow_window :
    windowTransactions storeOverflow 7 63839664000000000000 63842342399000000000 =
      [{ ID := 1, CreatedAt := 100, UpdatedAt := 100, DeletedAt := none,
         Amount := amount1e308, Description := "bonus", Date := 63840009600000000000,
         Type_ := "income", UserID := 7, CategoryID := 1 },
       { ID := 2, CreatedAt := 101, UpdatedAt := 101, DeletedAt := none,
         Amount := amount1e308, Description := "bonus", Date := 63840441600000000000,
         Type_ := "income", UserID := 7, CategoryID := 1 }] ∧
    windowTransactionsOfType storeOverflow 7 "income"
      63839664000000000000 63842342399000000000 =
      [{ ID := 1, CreatedAt := 100, UpdatedAt := 100, DeletedAt := none,
         Amount := amount1e308, Description := "bonus", Date := 63840009600000000000,
         Type_ := "income", UserID := 7, CategoryID := 1 },
       { ID := 2, CreatedAt := 101, UpdatedAt := 101, DeletedAt := none,
         Amount := amount1e308, Description := "bonus", Date := 63840441600000000000,
         Type_ := "income", UserID := 7, CategoryID := 1 }] ∧
    windowTransactionsOfType storeOverflow 7 "expense"
      63839664000000000000 63842342399000000000 = [] := by
  simp [windowTransactions, windowTransactionsOfType, storeOverflow, inWindow,
    januaryWindow.2.2.2.1, januaryWindow.2.2.2.2, List.filter]

theorem storeOverflow_breakdown :
    breakdownQuery storeOverflow
      [{ ID := 1, CreatedAt := 100, UpdatedAt := 100, DeletedAt := none,
         Amount := amount1e308, Description := "bonus", Date := 63840009600000000000,
         Type_ := "income", UserID := 7, CategoryID := 1 },
       { ID := 2, CreatedAt := 101, UpdatedAt := 101, DeletedAt := none,
         Amount := amount1e308, Description := "bonus", Date := 63840441600000000000,
         Type_ := "income", UserID := 7, CategoryID := 1 }] =
      [{ CategoryID := 1, CategoryName := "Salary", CategoryIcon := "💰",
         TotalAmount := amount1e308 + amount1e308, Count := 2 }] := by
  simp [breakdownQuery, joinCategories, groupBreakdown, groupKey, storeOverflow,
    salaryCategory, foodCategory, List.filter_cons]

theorem coalesceSum_overflow : coalesceSum [amount1e308, amount1e308] = 0 := by
  rw [coalesceSum_eq_scan]
  simp [scanFloat64, amount1e308_twice]

theorem scanBreakdownRow_overflow (i : Nat) (n c : String) (k : Nat) :
    scanBreakdownRow
      { CategoryID := i, CategoryName := n, CategoryIcon := c,
        TotalAmount := amount1e308 + amount1e308, Count := k } =
      { CategoryID := i, CategoryName := n, CategoryIcon := c, TotalAmount := 0,
        Count := 0 } := by
  simp [scanBreakdownRow, amount1e308_twice]

/-- The monthly report of January 2024 for user 7 of `storeOverflow`. -/
theorem storeOverflow_report :
    GetMonthlyReport storeOverflow 7 "2024" "01" =
      .json StatusOK
        ({ Month := "January 2024", TotalIncome := 0, TotalExpense := 0, Balance := 0,
           TransactionCount := 2 },
         [{ CategoryID := 1, CategoryName := "Salary", CategoryIcon := "💰",
            TotalAmount := 0, Count := 0, Percentage := .nan }]) := by
  have hname : monthName 1 ++ " " ++ "2024" = "January 2024" := by decide
  have hzero : F64.ofRat (0 + 0) = .num 0 := by
    rw [ofRat_of_fits (fitsFloat64_small (by norm_num) (by norm_num))]
    norm_num
  simp only [GetMonthlyReport, januaryWindow.1, januaryWindow.2.1, januaryWindow.2.2.1,
    storeOverflow_window.1, storeOverflow_window.2.1, storeOverflow_window.2.2, hname,
    storeOverflow_breakdown, List.map_cons, List.map_nil, coalesceSum_overflow,
    coalesceSum_nil, scanBreakdownRow_overflow, monthlySummaries, hzero]
  simp [F64.div, F64.times100]

theorem storeOverflow_specTotal :
    specWindowTotal storeOverflow 7 "income" (monthStart 2024 1) (monthEnd 2024 1) =
      amount1e308 + amount1e308 ∧
    (specWindowTransactions storeOverflow 7 (monthStart 2024 1) (monthEnd 2024 1)).length =
      2 := by
  constructor
  · rw [specWindowTotal, ← windowTransactionsOfType_eq_spec, januaryWindow.2.1,
      januaryWindow.2.2.1, storeOverflow_window.2.1]
    simp
  · rw [← windowTransactions_eq_spec, januaryWindow.2.1, januaryWindow.2.2.1,
      storeOverflow_window.1]
    rfl

/-- C6 at the failing input: after two valid requests of user 7, each an income of
`1e308` (positive and in the range of `float64`) in January 2024, the window holds two income transactions whose amounts
add up to `2e308`, and `GetMonthlyReport` for 2024-01 reports `totalIncome = 0`:
the sum is outside the range of `float64`, its conversion fails, and the error of
`Scan` is not read. -/
theorem monthlyReport_totals_overflow :
    (0 < amount1e308 ∧ fitsFloat64 amount1e308 = true) ∧
    runCalls storeDefaults overflowCalls = storeOverflow ∧
    specWindowTotal storeOverflow 7 "income" (monthStart 2024 1) (monthEnd 2024 1) =
      amount1e308 + amount1e308 ∧
    (specWindowTransactions storeOverflow 7 (monthStart 2024 1) (monthEnd 2024 1)).length =
      2 ∧
    ∃ (report : MonthlyReport) (breakdown : List CategorySummary),
      GetMonthlyReport storeOverflow 7 "2024" "01" = .json StatusOK (report, breakdown) ∧
      report.TransactionCount = 2 ∧ report.TotalIncome = 0 ∧
      report.TotalIncome ≠
        specWindowTotal storeOverflow 7 "income" (monthStart 2024 1) (monthEnd 2024 1) := by
  refine ⟨amount1e308_valid, storeOverflow_reachable.1, storeOverflow_specTotal.1,
    storeOverflow_specTotal.2, _, _, storeOverflow_report, rfl, rfl, ?_⟩
  rw [storeOverflow_specTotal.1]
  have hpos := amount1e308_valid.1
  show (0 : ℚ) ≠ amount1e308 + amount1e308
  linarith

/-- C8: there is a store reached from a fresh one by two valid requests (so all its
transactions have a positive amount, in the range of `float64`, and the type
"income" or "expense") and a month
for which `GetMonthlyReport` computes the percentage of a breakdown entry with the
divisor `totalIncome + totalExpense = 0`, giving NaN, while the guarded computation
of the dashboard on the same totals and rows gives the percentage 0. -/
theorem monthlyReport_zero_divisor_reachable :
    ∃ (calls : List Call) (report : MonthlyReport) (breakdown : List CategorySummary)
        (entry : CategorySummary),
      AmountsAndTypesValid (runCalls storeDefaults calls) ∧
      (∀ t ∈ (runCalls storeDefaults calls).transactions, fitsFloat64 t.Amount = true) ∧
      GetMonthlyReport (runCalls storeDefaults calls) 7 "2024" "01" =
        .json StatusOK (report, breakdown) ∧
      entry ∈ breakdown ∧
      report.TotalIncome + report.TotalExpense = 0 ∧
      entry.Percentage = .nan ∧
      (dashboardSummaries (F64.ofRat (report.TotalIncome + report.TotalExpense))
        ((breakdownQuery (runCalls storeDefaults calls)
          (windowTransactions (runCalls storeDefaults calls) 7
            (monthStart 2024 1) (monthEnd 2024 1))).map scanBreakdownRow)).map
          CategorySummary.Percentage = [.num 0] := by
  have hvalid : AmountsAndTypesValid (runCalls storeDefaults overflowCalls) :=
    amountsAndTypesValid_runCalls storeDefaults overflowCalls
      (by simp [AmountsAndTypesValid, storeDefaults])
  refine ⟨overflowCalls,
    { Month := "January 2024", TotalIncome := 0, TotalExpense := 0, Balance := 0,
      TransactionCount := 2 },
    [{ CategoryID := 1, CategoryName := "Salary", CategoryIcon := "💰",
       TotalAmount := 0, Count := 0, Percentage := .nan }],
    { CategoryID := 1, CategoryName := "Salary", CategoryIcon := "💰",
      TotalAmount := 0, Count := 0, Percentage := .nan },
    hvalid, ?_, ?_, List.mem_cons_self _ _, ?_, rfl, ?_⟩
  · rw [storeOverflow_reachable.1]
    simp [storeOverflow, amount1e308_valid.2]
  · rw [storeOverflow_reachable.1]
    exact storeOverflow_report
  · norm_num
  · rw [storeOverflow_reachable.1, januaryWindow.2.1, januaryWindow.2.2.1,
      storeOverflow_window.1, storeOverflow_breakdown]
    have hzero : F64.ofRat ((0 : ℚ) + 0) = .num 0 := by
      rw [ofRat_of_fits (fitsFloat64_small (by norm_num) (by norm_num))]
      norm_num
    simp only [List.map_cons, List.map_nil, scanBreakdownRow_overflow, dashboardSummaries,
      hzero]
    simp [F64.pos]

/-- C14 at the failing input: in `storeOverflow`, reached by two valid requests with
the amount `1e308` (positive and in the range of `float64`), every transaction has type "income" and references an existing category row, and the
window of January 2024 holds two transactions with amounts adding up to `2e308`, yet
the totals of the one breakdown entry add up to 0 and its percentage is
`0 / 0 * 100`, which is NaN, so the percentages do not add up to 100. -/
theorem monthlyReport_breakdown_overflow :
    (0 < amount1e308 ∧ fitsFloat64 amount1e308 = true) ∧
    runCalls storeDefaults overflowCalls = storeOverflow ∧
    (∀ t ∈ storeOverflow.transactions, t.DeletedAt = none →
      (t.Type_ = "income" ∨ t.Type_ = "expense") ∧
      ∃ c ∈ storeOverflow.categories, c.ID = t.CategoryID) ∧
    ∃ (report : MonthlyReport) (breakdown : List CategorySummary),
      GetMonthlyReport storeOverflow 7 "2024" "01" = .json StatusOK (report, breakdown) ∧
      report.TransactionCount = 2 ∧
      (breakdown.map CategorySummary.TotalAmount).sum = 0 ∧
      percentageSum breakdown = F64.nan ∧
      percentageSum breakdown ≠ F64.num 100 := by
  refine ⟨amount1e308_valid, storeOverflow_reachable.1,
    by simp [storeOverflow, salaryCategory],
    _, _, storeOverflow_report, rfl, ?_, ?_, ?_⟩ <;>
    simp [percentageSum, F64.add]

theorem storeOverflowMixed_reachable :
    runCalls storeDefaults mixedCalls = storeOverflowMixed := by
  decide

theorem storeOverflowMixed_rows :
    userTransactionsOfType storeOverflowMixed 7 "income" =
      [{ ID := 1, CreatedAt := 100, UpdatedAt := 100, DeletedAt := none,
         Amount := amount1e308, Description := "bonus", Date := timeDate 2024 1 5,
         Type_ := "income", UserID := 7, CategoryID := 1 },
       { ID := 2, CreatedAt := 101, UpdatedAt := 101, DeletedAt := none,
         Amount := amount1e308, Description := "bonus", Date := timeDate 2024 1 10,
         Type_ := "income", UserID := 7, CategoryID := 1 }] ∧
    userTransactionsOfType storeOverflowMixed 7 "expense" =
      [{ ID := 3, CreatedAt := 102, UpdatedAt := 102, DeletedAt := none,
         Amount := 5, Description := "lunch", Date := timeDate 2024 1 12,
         Type_ := "expense", UserID := 7, CategoryID := 2 }] ∧
    userTransactions storeOverflowMixed 7 = storeOverflowMixed.transactions := by
  simp [userTransactions, userTransactionsOfType, storeOverflowMixed, List.filter]

theorem storeOverflowMixed_breakdown :
    breakdownQuery storeOverflowMixed storeOverflowMixed.transactions =
      [{ CategoryID := 1, CategoryName := "Salary", CategoryIcon := "💰",
         TotalAmount := amount1e308 + amount1e308, Count := 2 },
       { CategoryID := 2, CategoryName := "Food", CategoryIcon := "🍔",
         TotalAmount := 5, Count := 1 }] := by
  have hpos := amount1e308_valid.1
  have hjoin : joinCategories storeOverflowMixed.transactions storeOverflowMixed.categories =
      [(({ ID := 1, CreatedAt := 100, UpdatedAt := 100, DeletedAt := none,
           Amount := amount1e308, Description := "bonus", Date := timeDate 2024 1 5,
           Type_ := "income", UserID := 7, CategoryID := 1 } : Transaction),
          salaryCategory),
       (({ ID := 2, CreatedAt := 101, UpdatedAt := 101, DeletedAt := none,
           Amount := amount1e308, Description := "bonus", Date := timeDate 2024 1 10,
           Type_ := "income", UserID := 7, CategoryID := 1 } : Transaction),
          salaryCategory),
       (({ ID := 3, CreatedAt := 102, UpdatedAt := 102, DeletedAt := none,
           Amount := 5, Description := "lunch", Date := timeDate 2024 1 12,
           Type_ := "expense", UserID := 7, CategoryID := 2 } : Transaction),
          foodCategory)] := by
    simp [joinCategories, storeOverflowMixed, List.filter_cons, salaryCategory, foodCategory]
  rw [breakdownQuery, hjoin]
  simp only [groupBreakdown, List.map_cons, List.map_nil, groupKey, foodCategory,
    salaryCategory]
  rw [List.dedup_cons_of_mem (by simp), List.dedup_cons_of_not_mem (by simp),
    List.dedup_cons_of_not_mem (by simp), List.dedup_nil]
  simp [List.filter_cons, totalDesc]
  have h5 : (5 : ℚ) < amount1e308 := by norm_num [amount1e308]
  linarith

theorem coalesceSum_five : coalesceSum [(5 : ℚ)] = 5 :=
  (coalesceSum_of_fits (fitsFloat64_small (by norm_num) (by norm_num))).trans (by norm_num)

theorem scanBreakdownRow_five (i : Nat) (n c : String) (k : Nat) :
    scanBreakdownRow
      { CategoryID := i, CategoryName := n, CategoryIcon := c, TotalAmount := 5,
        Count := k } =
      { CategoryID := i, CategoryName := n, CategoryIcon := c, TotalAmount := 5,
        Count := k } :=
  scanBreakdownRow_of_fits (fitsFloat64_small (by norm_num) (by norm_num))

theorem storeOverflowMixed_specTotal :
    specCategoryTotal storeOverflowMixed 7 1 = amount1e308 + amount1e308 := by
  simp [specCategoryTotal, specCategoryTransactions, storeOverflowMixed, List.filter]

/-- C9 at the failing input: after three valid requests of user 7 (two incomes of
`1e308`, positive and in the range of `float64`, in "Salary", one expense of 5 in
"Food") the breakdown of `GetDashboardStats`
lists "Salary" with total 0 before "Food" with total 5: the entry of "Salary" is not
the sum `2e308` of the user's transactions in that category, and the entries are not
in non-increasing order of total.  The sum is outside the range of `float64` and the
error of `Scan` is not read; `totalIncome` is 0 for the same reason. -/
theorem dashboard_breakdown_overflow :
    (0 < amount1e308 ∧ fitsFloat64 amount1e308 = true) ∧
    runCalls storeDefaults mixedCalls = storeOverflowMixed ∧
    specCategoryTotal storeOverflowMixed 7 1 = amount1e308 + amount1e308 ∧
    ∃ stats : DashboardStats,
      GetDashboardStats storeOverflowMixed 7 = .json StatusOK stats ∧
      stats.TotalIncome = 0 ∧ stats.TotalExpense = 5 ∧
      stats.CategoryBreakdown.map
          (fun e => (e.CategoryID, e.CategoryName, e.TotalAmount, e.Percentage)) =
        [(1, "Salary", 0, .num 0), (2, "Food", 5, .num 100)] ∧
      (∃ e ∈ stats.CategoryBreakdown, e.CategoryID = 1 ∧
        e.TotalAmount ≠ specCategoryTotal storeOverflowMixed 7 1) ∧
      ¬ stats.CategoryBreakdown.Pairwise (fun a b => b.TotalAmount ≤ a.TotalAmount) := by
  have hT : F64.ofRat ((0 : ℚ) + 5) = .num 5 := by
    rw [ofRat_of_fits (fitsFloat64_small (by norm_num) (by norm_num))]
    norm_num
  have hp0 : ((F64.num 0).div (F64.num 5)).times100 = .num 0 := by
    have h := @percentage_of_fits 0 5 (by norm_num)
      (fitsFloat64_small (by norm_num) (by norm_num))
      (fitsFloat64_small (by norm_num) (by norm_num))
      (fitsFloat64_small (by norm_num) (by norm_num))
    rw [ofRat_of_fits (fitsFloat64_small (by norm_num) (by norm_num))] at h
    rw [h]
    norm_num
  have hp5 : ((F64.num 5).div (F64.num 5)).times100 = .num 100 := by
    have h := @percentage_of_fits 5 5 (by norm_num)
      (fitsFloat64_small (by norm_num) (by norm_num))
      (fitsFloat64_small (by norm_num) (by norm_num))
      (fitsFloat64_small (by norm_num) (by norm_num))
    rw [ofRat_of_fits (fitsFloat64_small (by norm_num) (by norm_num))] at h
    rw [h]
    norm_num
  have hbreak : (dashboardSummaries
      (F64.ofRat (coalesceSum ((userTransactionsOfType storeOverflowMixed 7 "income").map
          Transaction.Amount) +
        coalesceSum ((userTransactionsOfType storeOverflowMixed 7 "expense").map
          Transaction.Amount)))
      (((breakdownQuery storeOverflowMixed (userTransactions storeOverflowMixed 7)).take
        10).map scanBreakdownRow)) =
      [{ CategoryID := 1, CategoryName := "Salary", CategoryIcon := "💰",
         TotalAmount := 0, Count := 0, Percentage := .num 0 },
       { CategoryID := 2, CategoryName := "Food", CategoryIcon := "🍔",
         TotalAmount := 5, Count := 1, Percentage := .num 100 }] := by
    simp only [storeOverflowMixed_rows.1, storeOverflowMixed_rows.2.1,
      storeOverflowMixed_rows.2.2, storeOverflowMixed_breakdown, List.map_cons, List.map_nil,
      coalesceSum_overflow, coalesceSum_five, List.take, scanBreakdownRow_overflow,
      scanBreakdownRow_five, dashboardSummaries, hT]
    simp [F64.pos, hp0, hp5]
  have hstats : GetDashboardStats storeOverflowMixed 7 =
      .json StatusOK
        { TotalIncome := 0, TotalExpense := 5, Balance := 0 - 5,
          TransactionCount := (userTransactions storeOverflowMixed 7).length,
          CategoryBreakdown :=
            [{ CategoryID := 1, CategoryName := "Salary", CategoryIcon := "💰",
               TotalAmount := 0, Count := 0, Percentage := .num 0 },
             { CategoryID := 2, CategoryName := "Food", CategoryIcon := "🍔",
               TotalAmount := 5, Count := 1, Percentage := .num 100 }],
          RecentTransactions :=
            (((userTransactions storeOverflowMixed 7).insertionSort recentFirst).take 5).map
              (fun t => t.ToResponse (preloadCategory storeOverflowMixed t)) } := by
    simp only [GetDashboardStats]
    rw [hbreak]
    simp only [storeOverflowMixed_rows.1, storeOverflowMixed_rows.2.1, List.map_cons,
      List.map_nil, coalesceSum_overflow, coalesceSum_five]
  have hpos := amount1e308_valid.1
  refine ⟨amount1e308_valid, storeOverflowMixed_reachable, storeOverflowMixed_specTotal, _,
    hstats, rfl, rfl, rfl, ?_, ?_⟩
  · refine ⟨_, List.mem_cons_self _ _, rfl, ?_⟩
    rw [storeOverflowMixed_specTotal]
    show (0 : ℚ) ≠ amount1e308 + amount1e308
    linarith
  · simp

end ExpenseTracker
